import Mathlib

/-!
Verification of the x402r refund-extension settlement helpers.

This file gives a shallow embedding of the TypeScript sources
(the server-side route helpers, the facilitator-side
settleWithRefundHelper and its retry/error machinery, and the
address-lookup logic) and proves the claims of the specification
against it.

Modelling conventions:
  - Chain interactions are modelled by an environment (`Env`) of
    oracles, one per call site; calls returning `Except.error`
    model a throwing signer call.
  - JavaScript thrown values are modelled by `JsError`; a
    `new Error(msg)` is `jsErr msg`.
  - Every network interaction is also recorded in an event trace
    (`Event`) so that temporal claims (call ordering, absence of
    writes) can be stated.
  - Strings are Lean `String`; JavaScript `toLowerCase`,
    `slice`, `parseInt(_, 16)`, `Buffer.from(_, "hex")` are
    modelled on `List Char` (ASCII payloads, which is what the
    claims exercise).
  - External library functions from viem and
    predict-deterministic-address (`getAddress` checksumming,
    CREATE3 address prediction, signature parsing) are abstracted
    as an `AddrOps` record; checksumming is assumed to change
    only letter case, which is the property the code relies on.
-/

namespace X402r

set_option maxRecDepth 100000

/-! ## String and JS-semantics utilities -/

/-- Lowercase a string character-wise (model of `String.prototype.toLowerCase`
    for the ASCII hex strings handled here). -/
def strToLower (s : String) : String :=
  String.mk (s.data.map Char.toLower)

/-- Does `sub` occur as a leading segment of `s`? -/
def listStartsWith : List Char → List Char → Bool
  | [], _ => true
  | _ :: _, [] => false
  | a :: as, b :: bs => a == b && listStartsWith as bs

/-- Model of `s.startsWith(pre)` on the character lists. -/
def strStartsWith (s pre : String) : Bool :=
  listStartsWith pre.data s.data

/-- Does `sub` occur anywhere in `s`? (model of `String.prototype.includes`). -/
def listContainsSeg : List Char → List Char → Bool
  | [], sub => sub.isEmpty
  | s@(_ :: tail), sub => listStartsWith sub s || listContainsSeg tail sub

/-- The test `strContains s sub` models `s.includes(sub)`. -/
def strContains (s sub : String) : Bool :=
  listContainsSeg s.data sub.data

/-- Model of `String.prototype.slice(a, b)` for non-negative indices
    (clamping at the end of the string, as JS does). -/
def jsSlice (s : String) (a b : Nat) : String :=
  String.mk ((s.data.drop a).take (b - a))

/-- Value of a hexadecimal digit character, if any. -/
def hexDigitVal (c : Char) : Option Nat :=
  if c.isDigit then some (c.toNat - 48)
  else if 'a' ≤ c ∧ c ≤ 'f' then some (c.toNat - 87)
  else if 'A' ≤ c ∧ c ≤ 'F' then some (c.toNat - 55)
  else none

/-- Accumulate the value of a leading run of hex digits
    (like `parseInt(_, 16)`, which stops at the first invalid character). -/
def parseHexAux : List Char → Nat → Nat
  | [], acc => acc
  | c :: cs, acc =>
    match hexDigitVal c with
    | some v => parseHexAux cs (acc * 16 + v)
    | none => acc

/-- Model of `parseInt(s, 16)`: `none` models `NaN` (first character not a
    hex digit, or empty string).  Whitespace/prefix handling of `parseInt`
    is not modelled; the call sites never feed it prefixed input. -/
def parseHexNat (s : String) : Option Nat :=
  match s.data with
  | [] => none
  | c :: _ =>
    match hexDigitVal c with
    | none => none
    | some _ => some (parseHexAux s.data 0)

/-- Decode hex pairs to byte values; stops at an invalid pair or odd tail,
    like `Buffer.from(s, "hex")`. -/
def hexPairsToBytes : List Char → List Nat
  | a :: b :: rest =>
    match hexDigitVal a, hexDigitVal b with
    | some x, some y => (16 * x + y) :: hexPairsToBytes rest
    | _, _ => []
  | _ => []

/-- Bytes to string, byte-per-character: model of `.toString("utf8")`
    restricted to ASCII payloads (all inputs exercised here are ASCII). -/
def bytesToStringAscii (bs : List Nat) : String :=
  String.mk (bs.map Char.ofNat)

/-- Model of `.replace(/\0/g, "")`. -/
def stripNulls (s : String) : String :=
  String.mk (s.data.filter (fun c => c ≠ Char.ofNat 0))

/-- Model of `String.prototype.trim`. -/
def strTrim (s : String) : String :=
  String.mk (((s.data.dropWhile Char.isWhitespace).reverse.dropWhile
    Char.isWhitespace).reverse)

/-- The zero address constant from viem. -/
def zeroAddress : String := "0x0000000000000000000000000000000000000000"

/-- Syntactic address validity: `^0x[a-fA-F0-9]\x7b40\x7d$`.  Models the
    format component of viem `isAddress`; the additional checksum test of
    viem is abstracted away (it can only turn valid-format inputs into
    rejections, and the claims exercised here use clearly valid or clearly
    invalid inputs). -/
def isAddress (s : String) : Bool :=
  s.length == 42 && strStartsWith s "0x" &&
    ((s.data.drop 2).all fun c => (hexDigitVal c).isSome)

/-- Model of `a || b` on JS strings where `undefined` is `none` and `""` is falsy. -/
def jsOrOpt (a b : Option String) : Option String :=
  match a with
  | some s => if s = "" then b else some s
  | none => b

/-- Record update on an association list: JS object property assignment. -/
def recordSet {V : Type} (l : List (String × V)) (k : String) (v : V) :
    List (String × V) :=
  l.filter (fun p => p.1 ≠ k) ++ [(k, v)]

/-- Object spread `\x7b...base, ...upd\x7d`: keys of `upd` override `base`. -/
def mergeRecords {V : Type} (base upd : List (String × V)) :
    List (String × V) :=
  base.filter (fun p => (upd.lookup p.1).isNone) ++ upd

/-! ## JavaScript error values -/

/-- The named fields the facilitator code reads off a thrown value. -/
structure ErrFields where
  status : Option Nat
  message : Option String
  details : Option String
  shortMessage : Option String
  reason : Option String
  data : Option String
  deriving DecidableEq, Repr

/-- A thrown JS value with an optional `cause` chain. -/
inductive JsError where
  | base (fields : ErrFields)
  | causedBy (fields : ErrFields) (cause : JsError)
  deriving DecidableEq, Repr

/-- The own fields of an error (not following `cause`). -/
def JsError.fields : JsError → ErrFields
  | .base f => f
  | .causedBy f _ => f

/-- Model of `new Error(msg)`. -/
def jsErr (msg : String) : JsError :=
  .base ⟨none, some msg, none, none, none, none⟩

/-- Model of `error instanceof Error ? error.message : String(error)` for the error
    values modelled here. -/
def errMessage (e : JsError) : String :=
  (e.fields).message.getD ""

/-- Model of `err.message || err.details || ""`. -/
def msgOrDetails (f : ErrFields) : String :=
  match f.message with
  | some s => if s = "" then f.details.getD "" else s
  | none => f.details.getD ""

/-- Rate-limit test on the own fields of one error object. -/
def rateLimitFields (f : ErrFields) : Bool :=
  f.status == some 429 ||
    strContains (strToLower (msgOrDetails f)) "rate limit"

/-- Model of `isRateLimitError`: status 429 or a rate-limit message anywhere
    in the cause chain. -/
def isRateLimitError : JsError → Bool
  | .base f => rateLimitFields f
  | .causedBy f c => rateLimitFields f || isRateLimitError c

/-! ## Events and the read-retry wrapper -/

/-- Observable interactions of one settlement run. -/
inductive Event where
  | getCode (address : String)
  | readCall (address : String) (functionName : String)
  | writeCall (functionName : String)
  | waitReceipt
  | delay (ms : Nat)
  deriving DecidableEq, Repr

/-- Exponential backoff delay for read retries: 1s, 2s, 4s, 8s, 16s cap. -/
def backoffDelay (attempt : Nat) : Nat :=
  min (1000 * 2 ^ attempt) 16000

/-- The retry loop of `readContractWithRetry`.  `oracle n` is the result of
    the n-th underlying `readContract` call; the second component of the
    result is the event trace.  The fuel argument is the number of retries
    still allowed (`maxRetries - attempt`). -/
def rcwrGo {α : Type} (oracle : Nat → Except JsError α)
    (address functionName : String) (attempt : Nat) :
    Nat → Except JsError α × List Event
  | 0 =>
    match oracle attempt with
    | .ok v => (.ok v, [.readCall address functionName])
    | .error e => (.error e, [.readCall address functionName])
  | fuel + 1 =>
    match oracle attempt with
    | .ok v => (.ok v, [.readCall address functionName])
    | .error e =>
      if isRateLimitError e then
        let r := rcwrGo oracle address functionName (attempt + 1) fuel
        (r.1, .readCall address functionName ::
          .delay (backoffDelay attempt) :: r.2)
      else
        (.error e, [.readCall address functionName])

/-- Model of `readContractWithRetry` (facilitator source): at most
    `maxRetries + 1` attempts, retrying only rate-limited failures with
    capped exponential backoff, propagating the last error. -/
def readContractWithRetry {α : Type} (oracle : Nat → Except JsError α)
    (address functionName : String) (maxRetries : Nat) :
    Except JsError α × List Event :=
  rcwrGo oracle address functionName 0 maxRetries

/-- Number of underlying read attempts recorded in a trace. -/
def countReads (t : List Event) : Nat :=
  (t.filter fun e => match e with
    | .readCall _ _ => true
    | _ => false).length

/-- The sequence of delays recorded in a trace. -/
def delaysOf (t : List Event) : List Nat :=
  t.filterMap fun e => match e with
    | .delay d => some d
    | _ => none

/-- Number of `writeContract` calls to `fn` recorded in a trace. -/
def countWrites (fn : String) (t : List Event) : Nat :=
  (t.filter fun e => e == .writeCall fn).length

/-! ## The error classifier (lines 1115-1185 of the facilitator source) -/

/-- Code-faithful decode of a revert `data` hex string, reproducing the
    exact slice offsets of the source: length word taken at characters
    138..202 and string data from character 202.  A `parseHexNat` result of
    `none` models `NaN`, for which `slice(202, NaN)` yields the empty
    string, hence no decoded reason. -/
def decodeRevertHexData (data : String) : Option String :=
  if strStartsWith data "0x08c379a0" then
    let lengthHex := jsSlice data 138 202
    match parseHexNat lengthHex with
    | none => none
    | some len =>
      let stringHex := jsSlice data 202 (202 + len * 2)
      let decoded := stripNulls (bytesToStringAscii (hexPairsToBytes stringHex.data))
      if decoded = "" then none else some decoded
  else none

/-- Follows the spec words for ABI `Error(string)` decoding (verify the
    4-byte selector, read the 32-byte length after the 32-byte offset,
    decode the payload, strip padding).  Stated only for comparison with
    the code-faithful `decodeRevertHexData`. -/
def decodeErrorStringSpec (data : String) : Option String :=
  if strStartsWith data "0x08c379a0" then
    match parseHexNat (jsSlice data 74 138) with
    | none => none
    | some len =>
      some (stripNulls (bytesToStringAscii
        (hexPairsToBytes (jsSlice data 138 (138 + len * 2)).data)))
  else none

/-- Backtracking capture for the regex `reverted(?:[: ]+)?(.+)` applied at a
    position just after an occurrence of `reverted`: the optional colon/space
    run is consumed greedily, backing off one character when nothing matchable
    by `.+` (at least one non-newline character) remains. -/
def captureAfterReverted (cs : List Char) : Option String :=
  let k := (cs.takeWhile fun c => c == ':' || c == ' ').length
  let okAt : Nat → Bool := fun j =>
    match cs.drop j with
    | [] => false
    | c :: _ => c != '\n'
  let capAt : Nat → String := fun j =>
    String.mk ((cs.drop j).takeWhile fun c => c ≠ '\n')
  if okAt k then some (capAt k)
  else if k = 0 then none
  else some (capAt (k - 1))

/-- Leftmost case-insensitive match of `reverted(?:[: ]+)?(.+)`, returning
    the first capture group. -/
def regexRevertedMatch : List Char → Option String
  | [] => none
  | s@(_ :: tail) =>
    if listStartsWith "reverted".data (s.map Char.toLower) then
      match captureAfterReverted (s.drop 8) with
      | some cap => some cap
      | none => regexRevertedMatch tail
    else regexRevertedMatch tail

/-- The revert-reason extraction of the deposit error handler:
    `cause.reason` if present, overridden by a successfully decoded
    `cause.data` payload, with a `shortMessage` regex fallback. -/
def extractRevertReason (e : JsError) : Option String :=
  let fromCause : Option String :=
    match e with
    | .base _ => none
    | .causedBy _ c =>
      let r1 : Option String := (c.fields).reason
      match (c.fields).data with
      | some d =>
        (match decodeRevertHexData d with
         | some dec => some dec
         | none => r1)
      | none => r1
  match fromCause with
  | some r => some r
  | none =>
    match (e.fields).shortMessage with
    | none => none
    | some sm =>
      if strContains sm "reverted" then
        match regexRevertedMatch sm.data with
        | some cap => if cap = "" then none else some (strTrim cap)
        | none => none
      else none

/-- The constant diagnostic the source falls back to when no usable revert
    reason was extracted. -/
def fallbackDiagnostic (orig : String) : String :=
  "Contract execution reverted (no specific revert reason available). " ++
  "All pre-checks passed: merchant registered, nonce unused, proxy immutables readable. " ++
  "Possible failure points in executeDeposit: " ++
  "1) _readImmutable staticcall failing (unlikely - we can read immutables directly), " ++
  "2) ERC3009 transferWithAuthorization failing when called through proxy (most likely), " ++
  "3) Transfer to escrow failing, " ++
  "4) Escrow.noteDeposit failing - POOL.supply() may be paused, asset not configured in Aave pool, or pool has restrictions. " ++
  "Check Aave pool status and asset configuration on Base Sepolia. " ++
  "Debugging: Use a transaction trace/debugger on the failed transaction to see exact revert point. " ++
  "The simulation succeeds, so the contract logic is correct - this is likely an execution context issue. " ++
  "Original error: " ++ orig

/-- The ErrorClassifier: builds the message attached to the error raised
    after the deposit retries are exhausted. -/
def classifyDepositError (e : JsError) : String :=
  let errorMessage := errMessage e
  match extractRevertReason e with
  | some r =>
    if r ≠ "" ∧ r ≠ "execution reverted" then "Contract reverted: " ++ r
    else fallbackDiagnostic errorMessage
  | none => fallbackDiagnostic errorMessage

/-! ## Error message templates (verbatim from the source) -/

def factoryNotExistMsg (factoryAddress : String) : String :=
  "Factory contract does not exist at " ++ factoryAddress ++
    ". Invalid refund extension."

def factoryFailMsg (inner : String) : String :=
  "Failed to check factory contract: " ++ inner

def addressMismatchMsg (expectedAddress proxyAddress : String) : String :=
  "Address mismatch: Factory computed " ++ expectedAddress ++
    " but expected " ++ proxyAddress ++
    ". This may indicate a version or CreateX address mismatch."

def deployRevertedMsg (txHash : String) : String :=
  "Relay deployment transaction failed: " ++ txHash ++ ". Transaction reverted."

def deployNoCodeMsg (proxyAddress txHash actualAddress : String) : String :=
  "Relay deployment completed but contract code not found at " ++ proxyAddress ++
    ". Transaction hash: " ++ txHash ++
    ". Factory computed address: " ++ actualAddress ++
    ". Expected address: " ++ proxyAddress ++
    ". This may indicate a CREATE3 deployment issue, timing problem, or address computation mismatch."

def insufficientFundsMsg (facilitatorAddress originalError : String) : String :=
  "Failed to deploy relay: Insufficient funds in facilitator account.\n" ++
    "The facilitator account (" ++ facilitatorAddress ++
    ") does not have enough ETH to pay for gas to deploy the relay contract.\n" ++
    "Please fund the facilitator account with ETH to cover gas costs.\n" ++
    "Original error: " ++ originalError

def deployFailedMsg (inner : String) : String :=
  "Failed to deploy relay: " ++ inner

def internalEscrowMsg : String :=
  "Internal error: escrowAddress not set after deployment check"

def regFailMsg (inner : String) : String :=
  "Failed to check merchant registration: " ++ inner

def merchantNotRegisteredMsg (merchantPayout : String) : String :=
  "Merchant " ++ merchantPayout ++
    " is not registered. Please register at https://app.402r.org to enable refund functionality."

def authBindingMsg (authTo proxyAddress : String) : String :=
  "Authorization \x27to\x27 address (" ++ authTo ++
    ") does not match proxy address (" ++ proxyAddress ++
    "). The ERC3009 signature must be signed with to=proxyAddress."

def tokenMismatchMsg (proxyTokenNormalized paymentAssetNormalized : String) : String :=
  "❌ ADDRESS MISMATCH: Proxy has " ++ proxyTokenNormalized ++
    " but payment requires " ++ paymentAssetNormalized ++
    ". The proxy was deployed with the wrong address. " ++
    "This causes transferWithAuthorization to fail. " ++
    "Solution: Redeploy the proxy with the correct address: " ++ paymentAssetNormalized

def escrowMismatchMsg (proxyEscrow escrowAddress : String) : String :=
  "Proxy ESCROW mismatch: proxy reports " ++ proxyEscrow ++
    " but we read " ++ escrowAddress ++ " earlier"

def immutablesFailMsg (inner : String) : String :=
  "Failed to read proxy immutables. This may indicate a proxy deployment issue. Error: " ++
    inner

def nonceUsedMsg (nonce : String) : String :=
  "ERC3009 nonce " ++ nonce ++
    " has already been used. This authorization cannot be reused."

def depositTxFailedMsg (txHash : String) : String :=
  "Proxy.executeDeposit transaction failed: " ++ txHash

def executeDepositFailedMsg (inner : String) : String :=
  "Failed to execute proxy.executeDeposit: " ++ inner

/-- Substrings (matched case-insensitively) that classify a deployment
    failure as an insufficient-funds error. -/
def insufficientFundsIndicators : List String :=
  ["insufficient funds", "exceeds the balance", "insufficient balance",
   "the total cost", "exceeds the balance of the account"]

/-- The catch handler of the deploy block. -/
def wrapDeployError (e : JsError) (facilitatorAddress : String) : String :=
  let errorMessage := errMessage e
  let errorString := strToLower errorMessage
  if insufficientFundsIndicators.any (fun s => strContains errorString s) then
    insufficientFundsMsg facilitatorAddress errorMessage
  else deployFailedMsg errorMessage

/-! ## Data model -/

/-- ERC-3009 transfer authorization carried in the payment payload.
    The source fields `from` and `to` are Lean tokens and are modelled as
    `fromAddr` and `toAddr`. -/
structure Authorization where
  fromAddr : String
  toAddr : String
  value : String
  validAfter : String
  validBefore : String
  nonce : String
  deriving DecidableEq, Repr

/-- The inner `payload` object of a payment payload; both fields may be
    absent. -/
structure InnerPayload where
  authorization : Option Authorization
  signature : Option String
  deriving DecidableEq, Repr

/-- The `info` object of a refund extension as found on the wire: every
    field may be missing. -/
structure RefundInfoFields where
  factoryAddress : Option String
  merchantPayouts : Option (List (String × String))
  deriving DecidableEq, Repr

/-- A refund extension value; `info` may be missing. -/
structure RefundExtensionData where
  info : Option RefundInfoFields
  deriving DecidableEq, Repr

/-- A payment payload: the outer `Option` models a missing `extensions`
    object, the inner one a missing `refund` key. -/
structure PaymentPayload where
  extensions : Option (Option RefundExtensionData)
  payload : InnerPayload
  deriving DecidableEq, Repr

structure PaymentRequirements where
  payTo : String
  asset : String
  network : String
  deriving DecidableEq, Repr

structure SettleResponse where
  success : Bool
  transaction : String
  network : String
  payer : String
  deriving DecidableEq, Repr

structure TxReceipt where
  status : String
  deriving DecidableEq, Repr

/-- Abstraction of the external address libraries (viem and
    predict-deterministic-address):
    `getAddress` is EIP-55 checksumming, `computeRelay` is the CREATE3
    address computation of `computeRelayAddress` (keccak-based, abstracted),
    `parse6492` is `parseErc6492Signature` (`none` models a throw) and
    `parseSig` is `parseSignature` returning `(v, r, s)`.
    `lower_getAddress` captures that checksumming only changes letter case;
    `checksum_computeRelay` that the computed relay address is already
    checksummed (both viem-documented behaviours the code relies on). -/
structure AddrOps where
  getAddress : String → String
  computeRelay : String → String → String → String
  parse6492 : String → Option String
  parseSig : String → Nat × String × String
  lower_getAddress : ∀ s, strToLower (getAddress s) = strToLower s
  checksum_computeRelay : ∀ c f m, getAddress (computeRelay c f m) = computeRelay c f m

/-! ## Server-side helpers (server source file) -/

def REFUND_EXTENSION_KEY : String := "refund"

def REFUND_MARKER_KEY : String := "_x402_refund"

/-- A payment option `payTo`: either a static address string or a
    `DynamicPayTo` function. -/
inductive PayTo where
  | addr (a : String)
  | dynamic
  deriving DecidableEq, Repr

/-- A payment option; `extra` models the side-channel metadata object with
    boolean-valued keys (the only values the helpers inspect). -/
structure PaymentOption where
  payTo : PayTo
  network : Option String
  extra : Option (List (String × Bool))
  deriving DecidableEq, Repr

/-- Type guard `isRefundableOption`: marker key present in `extra` with
    value `true`. -/
def isRefundableOption (option : PaymentOption) : Bool :=
  match option.extra with
  | none => false
  | some l => l.lookup REFUND_MARKER_KEY == some true

/-- Model of `refundable()`: clone the option and set the marker. -/
def refundable (option : PaymentOption) : PaymentOption :=
  { option with
    extra := some (recordSet (option.extra.getD []) REFUND_MARKER_KEY true) }

/-- The value stored under the `refund` extension key by
    `declareRefundExtension` (the constant JSON schema member carries no
    information and is omitted from the model). -/
structure RefundExtensionOut where
  factoryAddress : String
  merchantPayouts : List (String × String)
  deriving DecidableEq, Repr

def declareRefundExtension (factoryAddress : String)
    (merchantPayouts : List (String × String)) :
    List (String × RefundExtensionOut) :=
  [(REFUND_EXTENSION_KEY, ⟨factoryAddress, merchantPayouts⟩)]

/-- The field `accepts` is a single option or an array of options. -/
inductive Accepts where
  | one (o : PaymentOption)
  | many (l : List PaymentOption)
  deriving DecidableEq, Repr

structure RouteConfig where
  accepts : Accepts
  extensions : Option (List (String × RefundExtensionOut))
  deriving DecidableEq, Repr

inductive RoutesConfig where
  | single (c : RouteConfig)
  | nested (l : List (String × RouteConfig))
  deriving DecidableEq, Repr

def STANDARD_CREATEX_ADDRESSES : List (String × String) :=
  [("eip155:1", "0xba5Ed099633D3B313e4D5F7bdc1305d3c32ba066"),
   ("eip155:8453", "0xba5Ed099633D3B313e4D5F7bdc1305d3c28ba5Ed"),
   ("eip155:84532", "0xba5Ed099633D3B313e4D5F7bdc1305d3c28ba5Ed")]

def createxNotFoundMsg (network : String) : String :=
  "CreateX address not provided and no standard address found for network " ++
    network ++
    ". Please provide createxAddress parameter or check if CreateX is deployed on this network. " ++
    "See https://github.com/pcaversaccio/createx#createx-deployments for standard deployments."

/-- Model of `getCreateXAddress`: explicit parameter first (truthy check), then the
    standard table (whose entries are all nonempty, hence truthy). -/
def getCreateXAddress (network : String) (providedAddress : Option String) :
    Except String String :=
  match providedAddress with
  | some p =>
    if p ≠ "" then .ok p
    else
      match STANDARD_CREATEX_ADDRESSES.lookup network with
      | some s => .ok s
      | none => .error (createxNotFoundMsg network)
  | none =>
    match STANDARD_CREATEX_ADDRESSES.lookup network with
    | some s => .ok s
    | none => .error (createxNotFoundMsg network)

def dynamicPayToMsg : String :=
  "DynamicPayTo is not supported for refundable options. Use a static address."

def networkRequiredMsg : String :=
  "Payment option must have a network field to determine CreateX address"

def refundableNeedsStringMsg : String :=
  "Refundable option must have a string payTo address. DynamicPayTo is not supported for refundable options."

/-- Model of `processPaymentOption`: route a refundable option to its computed proxy
    address and remove the marker. -/
def processPaymentOption (ops : AddrOps) (option : PaymentOption)
    (factoryAddress createxAddress : String) : Except String PaymentOption :=
  if isRefundableOption option then
    match option.payTo with
    | .dynamic => .error dynamicPayToMsg
    | .addr merchantPayout =>
      let proxyAddress := ops.computeRelay createxAddress factoryAddress merchantPayout
      .ok { payTo := .addr proxyAddress
            network := option.network
            extra := some ((option.extra.getD []).filter
              fun p => p.1 ≠ REFUND_MARKER_KEY) }
  else .ok option

/-- Process each option of an `accepts` value. -/
def processAccepts (ops : AddrOps) (factoryAddress createxAddress : String) :
    Accepts → Except String Accepts
  | .one o => (processPaymentOption ops o factoryAddress createxAddress).map .one
  | .many l =>
    (l.mapM fun o => processPaymentOption ops o factoryAddress createxAddress).map .many

/-- The map of lowercased proxy address to merchant payout built from the
    refundable options before they are rewritten. -/
def buildMerchantPayoutsMap (ops : AddrOps)
    (factoryAddress createxAddress : String)
    (refundableOptions : List PaymentOption) : List (String × String) :=
  refundableOptions.foldl
    (fun acc o =>
      match o.payTo with
      | .addr merchantPayout =>
        recordSet acc
          (strToLower (ops.computeRelay createxAddress factoryAddress merchantPayout))
          merchantPayout
      | .dynamic => acc)
    []

/-- Model of `processRouteConfig` (server source): resolve the CreateX address,
    collect the merchant payout map, rewrite the refundable options and
    attach the refund extension. -/
def processRouteConfig (ops : AddrOps) (config : RouteConfig)
    (factoryAddress : String) (createxAddress : Option String) :
    Except String RouteConfig :=
  let firstOption := match config.accepts with
    | .one o => some o
    | .many l => l.head?
  match firstOption with
  | none => .error networkRequiredMsg
  | some fo =>
    match fo.network with
    | none => .error networkRequiredMsg
    | some network =>
      if network = "" then .error networkRequiredMsg
      else
        match getCreateXAddress network createxAddress with
        | .error m => .error m
        | .ok resolvedCreatexAddress =>
          let hasRefundable := match config.accepts with
            | .one o => isRefundableOption o
            | .many l => l.any isRefundableOption
          let refundableOptions : List PaymentOption :=
            if hasRefundable then
              match config.accepts with
              | .many l => l.filter isRefundableOption
              | .one o => if isRefundableOption o then [o] else []
            else []
          let merchantPayoutsMap :=
            buildMerchantPayoutsMap ops factoryAddress resolvedCreatexAddress
              refundableOptions
          match processAccepts ops factoryAddress resolvedCreatexAddress
              config.accepts with
          | .error m => .error m
          | .ok newAccepts =>
            if hasRefundable ∧ merchantPayoutsMap.length ≠ 0 then
              .ok { accepts := newAccepts
                    extensions := some (mergeRecords (config.extensions.getD [])
                      (declareRefundExtension factoryAddress merchantPayoutsMap)) }
            else if hasRefundable then .error refundableNeedsStringMsg
            else .ok { accepts := newAccepts
                       extensions := some (config.extensions.getD []) }

/-- Model of `withRefund`: process a single route config or each entry of a nested
    routes record. -/
def withRefund (ops : AddrOps) (routes : RoutesConfig)
    (factoryAddress : String) (createxAddress : Option String) :
    Except String RoutesConfig :=
  match routes with
  | .nested l =>
    (l.mapM fun p =>
      (processRouteConfig ops p.2 factoryAddress createxAddress).map
        fun c => (p.1, c)).map .nested
  | .single c =>
    (processRouteConfig ops c factoryAddress createxAddress).map .single

/-! ## Facilitator-side helpers (facilitator source file) -/

/-- Model of `extractRefundInfo`: the refund extension info, or `none` when the
    extension, its info, or its factory address is absent, empty, or fails
    the address-format check.  The second parameter is unused in the
    source (kept for API compatibility) and likewise here. -/
def extractRefundInfo (paymentPayload : PaymentPayload)
    (_ : PaymentRequirements) :
    Option (String × List (String × String)) :=
  match paymentPayload.extensions with
  | none => none
  | some none => none
  | some (some ext) =>
    match ext.info with
    | none => none
    | some info =>
      match info.factoryAddress with
      | none => none
      | some factoryAddress =>
        if factoryAddress = "" then none
        else
          let merchantPayouts := info.merchantPayouts.getD []
          if isAddress factoryAddress then some (factoryAddress, merchantPayouts)
          else none

/-- Model of `!code || code === "0x" || code.length <= 2` (with `undefined` as
    `none`): the existence probe treats such code as absent. -/
def codeAbsent : Option String → Bool
  | none => true
  | some s => s == "0x" || s.length ≤ 2

/-- The two-step merchant payout lookup of the facilitator
    (`merchantPayouts[proxyAddress] || merchantPayouts[proxyAddressLower]`). -/
def lookupMerchantPayout (merchantPayouts : List (String × String))
    (proxyAddress : String) : Option String :=
  jsOrOpt (merchantPayouts.lookup proxyAddress)
    (merchantPayouts.lookup (strToLower proxyAddress))

/-- The chain environment of one settlement run: one oracle per call site
    of the source, indexed by attempt number where the site sits inside a
    retry or polling loop.  `Except.error` models a throwing signer call. -/
structure Env where
  getCodeFactory : Except JsError (Option String)
  getCodeProxy : Except JsError (Option String)
  readMerchantPayout : Nat → Except JsError String
  readEscrowA : Nat → Except JsError String
  readRelayAddr : Nat → Except JsError String
  writeDeployRelay : Except JsError String
  waitDeployReceipt : Except JsError TxReceipt
  pollCode : Nat → Except JsError (Option String)
  readRelayAddr2 : Nat → Except JsError String
  readEscrowB : Nat → Except JsError String
  readRegistered : Nat → Except JsError Bool
  readToken : Nat → Except JsError String
  readEscrowC : Nat → Except JsError String
  readAuthState : Nat → Except JsError Bool
  writeExecuteDeposit : Nat → Except JsError String
  waitDepositReceipt : Nat → Except JsError TxReceipt
  facilitatorAddress : String

/-- The factory existence probe with its surrounding try/catch: the inner
    does-not-exist throw is itself caught and re-wrapped by the catch, as
    in the source. -/
def factoryCheck (env : Env) (factoryAddress : String) :
    Except JsError Unit × List Event :=
  match env.getCodeFactory with
  | .error e =>
    (.error (jsErr (factoryFailMsg (errMessage e))), [.getCode factoryAddress])
  | .ok c =>
    if codeAbsent c then
      (.error (jsErr (factoryFailMsg (factoryNotExistMsg factoryAddress))),
       [.getCode factoryAddress])
    else (.ok (), [.getCode factoryAddress])

/-- Reads of `MERCHANT_PAYOUT` and `ESCROW` from a deployed proxy; any
    failure makes the surrounding catch return `null` (modelled as
    `none`). -/
def relayReadPhase (env : Env) (proxyAddress : String) :
    Option (String × String) × List Event :=
  match readContractWithRetry env.readMerchantPayout proxyAddress
      "MERCHANT_PAYOUT" 5 with
  | (.error _, t) => (none, t)
  | (.ok merchantPayout, t) =>
    match readContractWithRetry env.readEscrowA proxyAddress "ESCROW" 5 with
    | (.error _, t2) => (none, t ++ t2)
    | (.ok escrowAddress, t2) => (some (merchantPayout, escrowAddress), t ++ t2)

/-- The code-presence polling loop after deployment: up to 5 probes with
    delays 1s, 2s, 3s, 4s before probes 1..4; the last probe result is
    kept even when the code is still absent. -/
def pollCodeGo (pc : Nat → Except JsError (Option String))
    (proxyAddress : String) (i : Nat) :
    Nat → Except JsError (Option String) × List Event
  | 0 => (.ok none, [])
  | 1 =>
    let ds : List Event := if i = 0 then [] else [.delay (1000 * i)]
    match pc i with
    | .error e => (.error e, ds ++ [.getCode proxyAddress])
    | .ok c => (.ok c, ds ++ [.getCode proxyAddress])
  | fuel + 2 =>
    let ds : List Event := if i = 0 then [] else [.delay (1000 * i)]
    match pc i with
    | .error e => (.error e, ds ++ [.getCode proxyAddress])
    | .ok c =>
      if codeAbsent c then
        let r := pollCodeGo pc proxyAddress (i + 1) (fuel + 1)
        (r.1, ds ++ [.getCode proxyAddress] ++ r.2)
      else (.ok c, ds ++ [.getCode proxyAddress])

/-- The body of the deploy try block: consistency check against the
    factory, deployment, confirmation, code polling and the escrow read
    from the fresh proxy. -/
def deployInner (env : Env) (factoryAddress proxyAddress : String) :
    Except JsError String × List Event :=
  match readContractWithRetry env.readRelayAddr factoryAddress
      "getRelayAddress" 5 with
  | (.error e, t) => (.error e, t)
  | (.ok expectedAddress, t) =>
    if strToLower expectedAddress ≠ strToLower proxyAddress then
      (.error (jsErr (addressMismatchMsg expectedAddress proxyAddress)), t)
    else
      match env.writeDeployRelay with
      | .error e => (.error e, t ++ [.writeCall "deployRelay"])
      | .ok txHash =>
        let t2 := t ++ [.writeCall "deployRelay"]
        match env.waitDeployReceipt with
        | .error e => (.error e, t2 ++ [.waitReceipt])
        | .ok receipt =>
          let t3 := t2 ++ [.waitReceipt]
          if receipt.status ≠ "success" then
            (.error (jsErr (deployRevertedMsg txHash)), t3)
          else
            match pollCodeGo env.pollCode proxyAddress 0 5 with
            | (.error e, t4) => (.error e, t3 ++ t4)
            | (.ok deployedCode, t4) =>
              let t5 := t3 ++ t4
              if codeAbsent deployedCode then
                match readContractWithRetry env.readRelayAddr2 factoryAddress
                    "getRelayAddress" 5 with
                | (.error e, t6) => (.error e, t5 ++ t6)
                | (.ok actualAddress, t6) =>
                  (.error (jsErr (deployNoCodeMsg proxyAddress txHash actualAddress)),
                   t5 ++ t6)
              else
                match readContractWithRetry env.readEscrowB proxyAddress
                    "ESCROW" 5 with
                | (.error e, t6) => (.error e, t5 ++ t6)
                | (.ok escrowAddress, t6) => (.ok escrowAddress, t5 ++ t6)

/-- The deploy block with its catch handler (insufficient-funds detection
    and generic wrapping). -/
def deployPhase (env : Env) (factoryAddress proxyAddress : String) :
    Except JsError String × List Event :=
  match deployInner env factoryAddress proxyAddress with
  | (.error e, t) => (.error (jsErr (wrapDeployError e env.facilitatorAddress)), t)
  | (.ok escrowAddress, t) => (.ok escrowAddress, t)

/-- The body of the proxy-immutables try block: `TOKEN()` against the
    payment asset and `ESCROW()` against the escrow resolved earlier. -/
def immutablesInner (ops : AddrOps) (env : Env)
    (proxyAddress asset escrowAddress : String) :
    Except JsError Unit × List Event :=
  match readContractWithRetry env.readToken proxyAddress "TOKEN" 5 with
  | (.error e, t) => (.error e, t)
  | (.ok proxyToken, t) =>
    let proxyTokenNormalized := ops.getAddress proxyToken
    let paymentAssetNormalized := ops.getAddress asset
    if proxyTokenNormalized ≠ paymentAssetNormalized then
      (.error (jsErr (tokenMismatchMsg proxyTokenNormalized paymentAssetNormalized)), t)
    else
      match readContractWithRetry env.readEscrowC proxyAddress "ESCROW" 5 with
      | (.error e, t2) => (.error e, t ++ t2)
      | (.ok proxyEscrow, t2) =>
        if strToLower proxyEscrow ≠ strToLower escrowAddress then
          (.error (jsErr (escrowMismatchMsg proxyEscrow escrowAddress)), t ++ t2)
        else (.ok (), t ++ t2)

/-- The proxy-immutables block with its catch handler, which wraps every
    failure of the try body, including the consistency throws. -/
def immutablesPhase (ops : AddrOps) (env : Env)
    (proxyAddress asset escrowAddress : String) :
    Except JsError Unit × List Event :=
  match immutablesInner ops env proxyAddress asset escrowAddress with
  | (.error e, t) => (.error (jsErr (immutablesFailMsg (errMessage e))), t)
  | (.ok u, t) => (.ok u, t)

/-- The try body of the nonce check: a successful read reporting a used
    nonce throws the NonceReused error. -/
def noncePhaseInner (env : Env) (tokenAddress nonce : String) :
    Except JsError Unit × List Event :=
  match readContractWithRetry env.readAuthState tokenAddress
      "authorizationState" 5 with
  | (.error e, t) => (.error e, t)
  | (.ok nonceUsed, t) =>
    if nonceUsed then (.error (jsErr (nonceUsedMsg nonce)), t)
    else (.ok (), t)

/-- The nonce check as executed: the catch block of the source discards
    every failure of the try body — including the NonceReused error the
    body itself throws — so only the trace survives and execution always
    proceeds to the deposit. -/
def noncePhase (env : Env) (tokenAddress nonce : String) : List Event :=
  (noncePhaseInner env tokenAddress nonce).2

/-- One attempt of the deposit loop: submit `executeDeposit`, await the
    receipt, fail on a non-success status. -/
def depositAttempt (wr : Nat → Except JsError String)
    (wt : Nat → Except JsError TxReceipt) (attempt : Nat) :
    Except JsError String × List Event :=
  match wr attempt with
  | .error e => (.error e, [.writeCall "executeDeposit"])
  | .ok txHash =>
    match wt attempt with
    | .error e => (.error e, [.writeCall "executeDeposit", .waitReceipt])
    | .ok receipt =>
      if receipt.status ≠ "success" then
        (.error (jsErr (depositTxFailedMsg txHash)),
         [.writeCall "executeDeposit", .waitReceipt])
      else (.ok txHash, [.writeCall "executeDeposit", .waitReceipt])

/-- The deposit retry loop: delays of `(attempt + 1)` seconds after each
    failed non-final attempt, keeping the last error. -/
def depositGo (wr : Nat → Except JsError String)
    (wt : Nat → Except JsError TxReceipt) (attempt : Nat) :
    Nat → Except JsError String × List Event
  | 0 => depositAttempt wr wt attempt
  | fuel + 1 =>
    match depositAttempt wr wt attempt with
    | (.ok txHash, t) => (.ok txHash, t)
    | (.error _, t) =>
      let r := depositGo wr wt (attempt + 1) fuel
      (r.1, t ++ [.delay ((attempt + 1) * 1000)] ++ r.2)

/-- The deposit-execution retry policy as instantiated by the source
    (`maxRetries = 5`, attempts from 0). -/
def depositPhase (wr : Nat → Except JsError String)
    (wt : Nat → Except JsError TxReceipt) :
    Except JsError String × List Event :=
  depositGo wr wt 0 5

/-- The tail of the settlement from the point where proxy address,
    merchant payout and escrow address have been resolved (source line 904
    onward). -/
def settleStage2 (ops : AddrOps) (env : Env)
    (paymentPayload : PaymentPayload) (paymentRequirements : PaymentRequirements)
    (proxyAddress merchantPayout escrowAddress : String) :
    Except JsError (Option SettleResponse) × List Event :=
  if escrowAddress = "" then (.error (jsErr internalEscrowMsg), [])
  else
    match readContractWithRetry env.readRegistered
        (ops.getAddress escrowAddress) "registeredMerchants" 5 with
    | (.error e, t) => (.error (jsErr (regFailMsg (errMessage e))), t)
    | (.ok isRegistered, t) =>
      if ¬ isRegistered then
        (.error (jsErr (merchantNotRegisteredMsg merchantPayout)), t)
      else
        match paymentPayload.payload.authorization,
            paymentPayload.payload.signature with
        | none, _ => (.ok none, t)
        | some _, none => (.ok none, t)
        | some authorization, some signature =>
          if signature = "" then (.ok none, t)
          else
            let authTo := ops.getAddress authorization.toAddr
            if authTo ≠ proxyAddress then
              (.error (jsErr (authBindingMsg authTo proxyAddress)), t)
            else
              match immutablesPhase ops env proxyAddress
                  paymentRequirements.asset escrowAddress with
              | (.error e, t2) => (.error e, t ++ t2)
              | (.ok _, t2) =>
                let parsedSignature := (ops.parse6492 signature).getD signature
                let signatureLength :=
                  if strStartsWith parsedSignature "0x" then
                    parsedSignature.length - 2
                  else parsedSignature.length
                if signatureLength ≠ 130 then (.ok none, t ++ t2)
                else
                  let _vrs := ops.parseSig parsedSignature
                  let t3 := noncePhase env
                    (ops.getAddress paymentRequirements.asset)
                    authorization.nonce
                  match depositPhase env.writeExecuteDeposit
                      env.waitDepositReceipt with
                  | (.ok txHash, t4) =>
                    (.ok (some ⟨true, txHash, paymentRequirements.network,
                      authorization.fromAddr⟩), t ++ t2 ++ t3 ++ t4)
                  | (.error e, t4) =>
                    (.error (jsErr (executeDepositFailedMsg
                      (classifyDepositError e))), t ++ t2 ++ t3 ++ t4)

/-- Model of `settleWithRefundHelper` (facilitator source): extension extraction,
    factory probe, relay resolution or on-demand deployment, registration
    gate, authorization binding, proxy consistency, signature decoding,
    advisory nonce check and the deposit execution. -/
def settleWithRefundHelper (ops : AddrOps) (env : Env)
    (paymentPayload : PaymentPayload)
    (paymentRequirements : PaymentRequirements) :
    Except JsError (Option SettleResponse) × List Event :=
  match extractRefundInfo paymentPayload paymentRequirements with
  | none => (.ok none, [])
  | some (factoryAddress, merchantPayouts) =>
    match factoryCheck env factoryAddress with
    | (.error e, t0) => (.error e, t0)
    | (.ok _, t0) =>
      let proxyAddress := ops.getAddress paymentRequirements.payTo
      match env.getCodeProxy with
      | .error e => (.error e, t0 ++ [.getCode proxyAddress])
      | .ok relayCode =>
        let t1 := t0 ++ [.getCode proxyAddress]
        if codeAbsent relayCode then
          match lookupMerchantPayout merchantPayouts proxyAddress with
          | none => (.ok none, t1)
          | some merchantPayout =>
            -- the falsy/zero test of line 789 and its repeat at line 797
            -- are the same condition and both precede the deploy block
            if merchantPayout = "" ∨ merchantPayout = zeroAddress then
              (.ok none, t1)
            else
              match deployPhase env factoryAddress proxyAddress with
              | (.error e, t2) => (.error e, t1 ++ t2)
              | (.ok escrowAddress, t2) =>
                let r := settleStage2 ops env paymentPayload
                  paymentRequirements proxyAddress merchantPayout escrowAddress
                (r.1, t1 ++ t2 ++ r.2)
        else
          match relayReadPhase env proxyAddress with
          | (none, t2) => (.ok none, t1 ++ t2)
          | (some (merchantPayout, escrowAddress), t2) =>
            if merchantPayout = "" ∨ merchantPayout = zeroAddress then
              (.ok none, t1 ++ t2)
            else
              let r := settleStage2 ops env paymentPayload
                paymentRequirements proxyAddress merchantPayout escrowAddress
              (r.1, t1 ++ t2 ++ r.2)

/-! ## Lemmas about the read-retry wrapper -/

theorem countReads_nil : countReads [] = 0 := rfl

theorem delaysOf_nil : delaysOf [] = [] := rfl

theorem countReads_readCall (a f : String) (t : List Event) :
    countReads (Event.readCall a f :: t) = countReads t + 1 := by
  simp [countReads, List.filter]

theorem countReads_delay (d : Nat) (t : List Event) :
    countReads (Event.delay d :: t) = countReads t := by
  simp [countReads, List.filter]

theorem delaysOf_readCall (a f : String) (t : List Event) :
    delaysOf (Event.readCall a f :: t) = delaysOf t := by
  simp [delaysOf]

theorem delaysOf_delay (d : Nat) (t : List Event) :
    delaysOf (Event.delay d :: t) = d :: delaysOf t := by
  simp [delaysOf]

/-- Every run of the retry loop performs at least one read. -/
theorem rcwrGo_reads_pos {α : Type} (oracle : Nat → Except JsError α)
    (a f : String) (i fuel : Nat) :
    1 ≤ countReads (rcwrGo oracle a f i fuel).2 := by
  cases fuel with
  | zero =>
    cases h : oracle i <;> simp [rcwrGo, h, countReads_readCall, countReads_nil]
  | succ n =>
    cases h : oracle i with
    | ok v => simp [rcwrGo, h, countReads_readCall, countReads_nil]
    | error e =>
      by_cases hrl : isRateLimitError e <;>
        simp [rcwrGo, h, hrl, countReads_readCall, countReads_delay, countReads_nil]

/-- The retry loop performs at most `fuel + 1` reads. -/
theorem rcwrGo_reads_le {α : Type} (oracle : Nat → Except JsError α)
    (a f : String) : ∀ (fuel i : Nat),
    countReads (rcwrGo oracle a f i fuel).2 ≤ fuel + 1 := by
  intro fuel
  induction fuel with
  | zero =>
    intro i
    cases h : oracle i <;> simp [rcwrGo, h, countReads_readCall, countReads_nil]
  | succ n ih =>
    intro i
    cases h : oracle i with
    | ok v => simp [rcwrGo, h, countReads_readCall, countReads_nil]
    | error e =>
      by_cases hrl : isRateLimitError e
      · have := ih (i + 1)
        simp [rcwrGo, h, hrl, countReads_readCall, countReads_delay, countReads_nil]
        omega
      · simp [rcwrGo, h, hrl, countReads_readCall, countReads_nil]

/-- The trace of the retry loop starts with the read event. -/
theorem rcwrGo_head {α : Type} (oracle : Nat → Except JsError α)
    (a f : String) (i fuel : Nat) :
    ∃ rest, (rcwrGo oracle a f i fuel).2 = Event.readCall a f :: rest := by
  cases fuel with
  | zero => cases h : oracle i <;> simp [rcwrGo, h]
  | succ n =>
    cases h : oracle i with
    | ok v => simp [rcwrGo, h]
    | error e =>
      by_cases hrl : isRateLimitError e <;> simp [rcwrGo, h, hrl]

/-- A non-rate-limited failure at attempt `j` (preceded only by rate-limited
    failures) stops the loop immediately: the error propagates and exactly
    `j + 1` reads were made. -/
theorem rcwrGo_nonRL {α : Type} (oracle : Nat → Except JsError α)
    (a f : String) : ∀ (j i fuel : Nat) (e : JsError), j ≤ fuel →
    oracle (i + j) = .error e → isRateLimitError e = false →
    (∀ k, k < j → ∃ e2, oracle (i + k) = .error e2 ∧ isRateLimitError e2 = true) →
    (rcwrGo oracle a f i fuel).1 = .error e ∧
      countReads (rcwrGo oracle a f i fuel).2 = j + 1 := by
  intro j
  induction j with
  | zero =>
    intro i fuel e _ he hrl _
    rw [Nat.add_zero] at he
    cases fuel with
    | zero => simp [rcwrGo, he, countReads_readCall, countReads_nil]
    | succ n => simp [rcwrGo, he, hrl, countReads_readCall, countReads_nil]
  | succ j ih =>
    intro i fuel e hj he hrl hpre
    obtain ⟨e2, h0, hrl2⟩ := hpre 0 (Nat.succ_pos j)
    rw [Nat.add_zero] at h0
    cases fuel with
    | zero => omega
    | succ n =>
      have hj' : j ≤ n := by omega
      have he' : oracle (i + 1 + j) = .error e := by
        have : i + 1 + j = i + (j + 1) := by omega
        rw [this]; exact he
      have hpre' : ∀ k, k < j →
          ∃ e3, oracle (i + 1 + k) = .error e3 ∧ isRateLimitError e3 = true := by
        intro k hk
        have : i + 1 + k = i + (k + 1) := by omega
        rw [this]
        exact hpre (k + 1) (by omega)
      have := ih (i + 1) n e hj' he' hrl hpre'
      simp [rcwrGo, h0, hrl2, countReads_readCall, countReads_delay, countReads_nil, this]

/-- The delays recorded by the retry loop follow the capped exponential
    backoff schedule, one delay per non-final attempt. -/
theorem rcwrGo_delays {α : Type} (oracle : Nat → Except JsError α)
    (a f : String) : ∀ (fuel i : Nat),
    delaysOf (rcwrGo oracle a f i fuel).2 =
      (List.range (countReads (rcwrGo oracle a f i fuel).2 - 1)).map
        (fun k => backoffDelay (i + k)) := by
  intro fuel
  induction fuel with
  | zero =>
    intro i
    cases h : oracle i <;>
      simp [rcwrGo, h, countReads_readCall, countReads_nil, delaysOf_readCall, delaysOf_nil, delaysOf]
  | succ n ih =>
    intro i
    cases h : oracle i with
    | ok v => simp [rcwrGo, h, countReads_readCall, countReads_nil, delaysOf_readCall, delaysOf_nil, delaysOf]
    | error e =>
      by_cases hrl : isRateLimitError e
      · have hpos := rcwrGo_reads_pos oracle a f (i + 1) n
        obtain ⟨m, hm⟩ : ∃ m, countReads (rcwrGo oracle a f (i + 1) n).2 = m + 1 := by
          refine ⟨countReads (rcwrGo oracle a f (i + 1) n).2 - 1, by omega⟩
        have ih' := ih (i + 1)
        rw [hm] at ih'
        simp only [Nat.add_sub_cancel] at ih'
        simp only [rcwrGo, h, hrl, if_true]
        simp only [countReads_readCall, countReads_delay, delaysOf_readCall,
          delaysOf_delay, hm, ih']
        have : m + 1 + 1 - 1 = m + 1 := by omega
        rw [this, List.range_succ_eq_map, List.map_cons, List.map_map]
        congr 1
        apply List.map_congr_left
        intro k _
        simp only [Function.comp]
        congr 1
        omega
      · simp [rcwrGo, h, hrl, countReads_readCall, countReads_nil, delaysOf_readCall, delaysOf_nil, delaysOf]

/-- When every attempt fails (the non-final ones rate-limited), the loop
    propagates the error of the final attempt. -/
theorem rcwrGo_exhaust {α : Type} (oracle : Nat → Except JsError α)
    (a f : String) : ∀ (fuel i : Nat) (e : JsError),
    (∀ k, k < fuel → ∃ e2, oracle (i + k) = .error e2 ∧ isRateLimitError e2 = true) →
    oracle (i + fuel) = .error e →
    (rcwrGo oracle a f i fuel).1 = .error e := by
  intro fuel
  induction fuel with
  | zero =>
    intro i e _ he
    rw [Nat.add_zero] at he
    simp [rcwrGo, he]
  | succ n ih =>
    intro i e hpre he
    obtain ⟨e2, h0, hrl2⟩ := hpre 0 (Nat.succ_pos n)
    rw [Nat.add_zero] at h0
    have he' : oracle (i + 1 + n) = .error e := by
      have : i + 1 + n = i + (n + 1) := by omega
      rw [this]; exact he
    have hpre' : ∀ k, k < n →
        ∃ e3, oracle (i + 1 + k) = .error e3 ∧ isRateLimitError e3 = true := by
      intro k hk
      have : i + 1 + k = i + (k + 1) := by omega
      rw [this]
      exact hpre (k + 1) (by omega)
    simp [rcwrGo, h0, hrl2, ih (i + 1) e hpre' he']

/-- A first-attempt success makes the wrapper return immediately. -/
theorem rcwr_ok0 {α : Type} {oracle : Nat → Except JsError α} {v : α}
    (a f : String) (n : Nat) (h : oracle 0 = .ok v) :
    readContractWithRetry oracle a f n = (.ok v, [Event.readCall a f]) := by
  cases n <;> simp [readContractWithRetry, rcwrGo, h]

/-- A first-attempt non-rate-limited failure propagates immediately. -/
theorem rcwr_err0 {α : Type} {oracle : Nat → Except JsError α} {e : JsError}
    (a f : String) (n : Nat) (h : oracle 0 = .error e)
    (hrl : isRateLimitError e = false) :
    readContractWithRetry oracle a f n = (.error e, [Event.readCall a f]) := by
  cases n <;> simp [readContractWithRetry, rcwrGo, h, hrl]

/-- C3: for every call and every maxRetries, `readContractWithRetry` makes
    at most `maxRetries + 1` underlying attempts; a non-rate-limited failure
    (after only rate-limited ones) propagates immediately with no further
    attempts; the delay before retry `k + 1` is `min(1000 * 2^k, 16000)`
    with attempts numbered from 0; and when the final attempt fails its
    error is the one propagated. -/
theorem C3_read_retry_policy {α : Type} (oracle : Nat → Except JsError α)
    (address functionName : String) (maxRetries : Nat) :
    countReads (readContractWithRetry oracle address functionName maxRetries).2 ≤
      maxRetries + 1
  ∧ (∀ j e, j ≤ maxRetries → oracle j = .error e → isRateLimitError e = false →
      (∀ i, i < j → ∃ e2, oracle i = .error e2 ∧ isRateLimitError e2 = true) →
      (readContractWithRetry oracle address functionName maxRetries).1 = .error e ∧
        countReads (readContractWithRetry oracle address functionName maxRetries).2 =
          j + 1)
  ∧ delaysOf (readContractWithRetry oracle address functionName maxRetries).2 =
      (List.range
        (countReads (readContractWithRetry oracle address functionName maxRetries).2
          - 1)).map backoffDelay
  ∧ (∀ e, (∀ i, i < maxRetries → ∃ e2, oracle i = .error e2 ∧
        isRateLimitError e2 = true) →
      oracle maxRetries = .error e →
      (readContractWithRetry oracle address functionName maxRetries).1 = .error e) := by
  refine ⟨rcwrGo_reads_le oracle address functionName maxRetries 0, ?_, ?_, ?_⟩
  · intro j e hj he hrl hpre
    have := rcwrGo_nonRL oracle address functionName j 0 maxRetries e hj
      (by simpa using he) hrl (by simpa using hpre)
    exact this
  · have := rcwrGo_delays oracle address functionName maxRetries 0
    rw [readContractWithRetry, this]
    apply List.map_congr_left
    intro k _
    simp
  · intro e hpre he
    exact rcwrGo_exhaust oracle address functionName maxRetries 0 e
      (by simpa using hpre) (by simpa using he)

/-- A rate-limited error value (HTTP status 429). -/
def rlErrW : JsError := .base ⟨some 429, none, none, none, none, none⟩

/-- A plain failure that is not rate-limited. -/
def nonRlErrW : JsError := jsErr "boom"

/-- Oracle for the C3 witness: a rate-limited failure, then a plain one. -/
def oracleW : Nat → Except JsError Nat :=
  fun n => if n = 0 then .error rlErrW else .error nonRlErrW

/-- Witness for C3: with one rate-limited failure followed by a plain
    failure, the wrapper stops after the second attempt with that error. -/
theorem C3_read_retry_policy_witness :
    (readContractWithRetry oracleW "0xq" "f" 5).1 = .error nonRlErrW ∧
      countReads (readContractWithRetry oracleW "0xq" "f" 5).2 = 2 := by
  have h := (C3_read_retry_policy oracleW "0xq" "f" 5).2.1 1 nonRlErrW
    (by omega) rfl (by decide)
    (by
      intro i hi
      have : i = 0 := by omega
      subst this
      exact ⟨rlErrW, rfl, by decide⟩)
  exact h

/-! ## Concrete fixtures shared by the witnesses -/

/-- Concrete address operations: checksumming modelled as the identity
    (a valid `AddrOps` instance, since the identity only preserves case),
    a constant relay-address computation, no ERC-6492 wrapper and a fixed
    signature triple. -/
def opsW : AddrOps where
  getAddress := fun s => s
  computeRelay := fun _ _ _ => "0xproxyaddr"
  parse6492 := fun _ => none
  parseSig := fun _ => (27, "0xr", "0xs")
  lower_getAddress := fun _ => rfl
  checksum_computeRelay := fun _ _ _ => rfl

def factoryAddrW : String := "0xAAAAAAAAAAAAAAAAAAAAAAAAAAAAAAAAAAAAAAAA"

def authW : Authorization :=
  ⟨"0xuser", "0xproxyaddr", "1000", "0", "99999", "0xnonce1"⟩

/-- A 65-byte (130 hex character) signature. -/
def sigW : String := "0x" ++ String.mk (List.replicate 130 'a')

def reqsW : PaymentRequirements := ⟨"0xproxyaddr", "0xasset", "eip155:84532"⟩

/-- A payload carrying a well-formed refund extension. -/
def payloadW : PaymentPayload :=
  { extensions := some (some ⟨some ⟨some factoryAddrW,
      some [("0xproxyaddr", "0xmerchant")]⟩⟩)
    payload := ⟨some authW, some sigW⟩ }

/-- A fully cooperative chain environment: factory and relay deployed,
    merchant registered, consistent proxy immutables, unused nonce,
    first-attempt deposit success. -/
def envHappy : Env where
  getCodeFactory := .ok (some "0x6080aa")
  getCodeProxy := .ok (some "0x6080bb")
  readMerchantPayout := fun _ => .ok "0xmerchant"
  readEscrowA := fun _ => .ok "0xescrow"
  readRelayAddr := fun _ => .ok "0xproxyaddr"
  writeDeployRelay := .ok "0xtxdeploy"
  waitDeployReceipt := .ok ⟨"success"⟩
  pollCode := fun _ => .ok (some "0x6080bb")
  readRelayAddr2 := fun _ => .ok "0xproxyaddr"
  readEscrowB := fun _ => .ok "0xescrow"
  readRegistered := fun _ => .ok true
  readToken := fun _ => .ok "0xasset"
  readEscrowC := fun _ => .ok "0xescrow"
  readAuthState := fun _ => .ok false
  writeExecuteDeposit := fun _ => .ok "0xtxdeposit"
  waitDepositReceipt := fun _ => .ok ⟨"success"⟩
  facilitatorAddress := "0xfacilitator"

/-! ## Reduction lemmas for settlement runs -/

/-- Reduction of a settlement run along the deployed-relay path, up to the
    point where proxy address, merchant payout and escrow are resolved. -/
theorem settle_deployed_eq (ops : AddrOps) (env : Env)
    (paymentPayload : PaymentPayload) (reqs : PaymentRequirements)
    (fa : String) (mps : List (String × String)) (m esc : String)
    (c1 c2 : Option String)
    (hx : extractRefundInfo paymentPayload reqs = some (fa, mps))
    (hf : env.getCodeFactory = .ok c1) (hf2 : codeAbsent c1 = false)
    (hp : env.getCodeProxy = .ok c2) (hp2 : codeAbsent c2 = false)
    (hm : env.readMerchantPayout 0 = .ok m)
    (he : env.readEscrowA 0 = .ok esc)
    (hm1 : m ≠ "") (hm2 : m ≠ zeroAddress) :
    settleWithRefundHelper ops env paymentPayload reqs =
      ((settleStage2 ops env paymentPayload reqs (ops.getAddress reqs.payTo)
          m esc).1,
       Event.getCode fa :: Event.getCode (ops.getAddress reqs.payTo) ::
        Event.readCall (ops.getAddress reqs.payTo) "MERCHANT_PAYOUT" ::
        Event.readCall (ops.getAddress reqs.payTo) "ESCROW" ::
        (settleStage2 ops env paymentPayload reqs (ops.getAddress reqs.payTo)
          m esc).2) := by
  unfold settleWithRefundHelper
  rw [hx]
  simp only [factoryCheck, hf, hf2, relayReadPhase, hp, hp2,
    rcwr_ok0 _ _ 5 hm, rcwr_ok0 _ _ 5 he, Bool.false_eq_true, if_false,
    hm1, hm2, or_self, List.cons_append, List.nil_append]

/-- C1: for every payload with a refund extension that reaches the
    authorization-binding step (factory has code, relay resolved, merchant
    registered), a checksum-normalized `authorization.to` differing from
    the checksum-normalized `paymentRequirements.payTo` makes
    `settleWithRefundHelper` raise the AuthorizationBindingMismatch error
    (so it returns neither `null` nor a success result). -/
theorem C1_authorization_binding (ops : AddrOps) (env : Env)
    (paymentPayload : PaymentPayload) (reqs : PaymentRequirements)
    (fa : String) (mps : List (String × String)) (m esc : String)
    (c1 c2 : Option String) (auth : Authorization) (sig : String)
    (hx : extractRefundInfo paymentPayload reqs = some (fa, mps))
    (hf : env.getCodeFactory = .ok c1) (hf2 : codeAbsent c1 = false)
    (hp : env.getCodeProxy = .ok c2) (hp2 : codeAbsent c2 = false)
    (hm : env.readMerchantPayout 0 = .ok m)
    (he : env.readEscrowA 0 = .ok esc)
    (hm1 : m ≠ "") (hm2 : m ≠ zeroAddress) (hesc : esc ≠ "")
    (hreg : env.readRegistered 0 = .ok true)
    (hauth : paymentPayload.payload.authorization = some auth)
    (hsig : paymentPayload.payload.signature = some sig) (hs2 : sig ≠ "")
    (hne : ops.getAddress auth.toAddr ≠ ops.getAddress reqs.payTo) :
    (settleWithRefundHelper ops env paymentPayload reqs).1 =
      .error (jsErr (authBindingMsg (ops.getAddress auth.toAddr)
        (ops.getAddress reqs.payTo))) := by
  rw [settle_deployed_eq ops env paymentPayload reqs fa mps m esc c1 c2
    hx hf hf2 hp hp2 hm he hm1 hm2]
  unfold settleStage2
  simp [hesc, rcwr_ok0 _ _ 5 hreg, hauth, hsig, hs2, hne]

/-- A payload whose authorization is bound to a different address. -/
def payloadBadBinding : PaymentPayload :=
  { payloadW with
    payload := ⟨some { authW with toAddr := "0xsomewhereelse" }, some sigW⟩ }

/-- Witness for C1 at the concrete fixtures. -/
theorem C1_authorization_binding_witness :
    (settleWithRefundHelper opsW envHappy payloadBadBinding reqsW).1 =
      .error (jsErr (authBindingMsg "0xsomewhereelse" "0xproxyaddr")) := by
  exact C1_authorization_binding opsW envHappy payloadBadBinding reqsW
    factoryAddrW [("0xproxyaddr", "0xmerchant")] "0xmerchant" "0xescrow"
    (some "0x6080aa") (some "0x6080bb")
    { authW with toAddr := "0xsomewhereelse" } sigW
    (by decide) rfl (by decide) rfl (by decide) rfl rfl
    (by decide) (by decide) (by decide) rfl rfl rfl (by decide) (by decide)

/-- The proposition that `sub` occurs as a contiguous substring of `s`. -/
def StrContainsSub (s sub : String) : Prop :=
  ∃ p q, s.data = p ++ sub.data ++ q

theorem errMessage_jsErr (m : String) : errMessage (jsErr m) = m := rfl

theorem StrContainsSub.self (a : String) : StrContainsSub a a :=
  ⟨[], [], by simp⟩

theorem StrContainsSub.appL (s : String) {t a : String}
    (h : StrContainsSub t a) : StrContainsSub (s ++ t) a := by
  obtain ⟨p, q, hpq⟩ := h
  exact ⟨s.data ++ p, q, by simp [String.data_append, hpq]⟩

theorem StrContainsSub.appR {t a : String} (s : String)
    (h : StrContainsSub t a) : StrContainsSub (t ++ s) a := by
  obtain ⟨p, q, hpq⟩ := h
  exact ⟨p, q ++ s.data, by simp [hpq]⟩

/-- The wrapped token-mismatch message contains both normalized addresses. -/
theorem tokenMismatch_contains_both (a b : String) :
    StrContainsSub (immutablesFailMsg (tokenMismatchMsg a b)) a ∧
      StrContainsSub (immutablesFailMsg (tokenMismatchMsg a b)) b := by
  unfold immutablesFailMsg tokenMismatchMsg
  constructor
  · exact .appL _ (.appR _ (.appR _ (.appR _ (.appR _ (.appR _ (.appR _
      (.appL _ (.self a))))))))
  · exact .appL _ (.appL _ (.self b))

/-- The wrapped escrow-mismatch message contains both escrow addresses. -/
theorem escrowMismatch_contains_both (a b : String) :
    StrContainsSub (immutablesFailMsg (escrowMismatchMsg a b)) a ∧
      StrContainsSub (immutablesFailMsg (escrowMismatchMsg a b)) b := by
  unfold immutablesFailMsg escrowMismatchMsg
  constructor
  · exact .appL _ (.appR _ (.appR _ (.appR _ (.appL _ (.self a)))))
  · exact .appL _ (.appR _ (.appL _ (.self b)))

/-- C6: with the relay deployed and the run past the binding check, a
    proxy `TOKEN()` differing (after checksum normalization) from the
    payment asset makes settle raise the wrapped ProxyConsistency error
    carrying both addresses, and `executeDeposit` is never written; the
    same holds for a proxy `ESCROW()` differing from the escrow resolved
    earlier. -/
theorem C6_proxy_consistency (ops : AddrOps) (env : Env)
    (paymentPayload : PaymentPayload) (reqs : PaymentRequirements)
    (fa : String) (mps : List (String × String)) (m esc : String)
    (c1 c2 : Option String) (auth : Authorization) (sig : String)
    (hx : extractRefundInfo paymentPayload reqs = some (fa, mps))
    (hf : env.getCodeFactory = .ok c1) (hf2 : codeAbsent c1 = false)
    (hp : env.getCodeProxy = .ok c2) (hp2 : codeAbsent c2 = false)
    (hm : env.readMerchantPayout 0 = .ok m)
    (he : env.readEscrowA 0 = .ok esc)
    (hm1 : m ≠ "") (hm2 : m ≠ zeroAddress) (hesc : esc ≠ "")
    (hreg : env.readRegistered 0 = .ok true)
    (hauth : paymentPayload.payload.authorization = some auth)
    (hsig : paymentPayload.payload.signature = some sig) (hs2 : sig ≠ "")
    (heq : ops.getAddress auth.toAddr = ops.getAddress reqs.payTo) :
    (∀ tok, env.readToken 0 = .ok tok →
      ops.getAddress tok ≠ ops.getAddress reqs.asset →
      (settleWithRefundHelper ops env paymentPayload reqs).1 =
        .error (jsErr (immutablesFailMsg (tokenMismatchMsg
          (ops.getAddress tok) (ops.getAddress reqs.asset)))) ∧
      Event.writeCall "executeDeposit" ∉
        (settleWithRefundHelper ops env paymentPayload reqs).2 ∧
      StrContainsSub (immutablesFailMsg (tokenMismatchMsg
        (ops.getAddress tok) (ops.getAddress reqs.asset))) (ops.getAddress tok) ∧
      StrContainsSub (immutablesFailMsg (tokenMismatchMsg
        (ops.getAddress tok) (ops.getAddress reqs.asset)))
        (ops.getAddress reqs.asset))
  ∧ (∀ tok pe, env.readToken 0 = .ok tok →
      ops.getAddress tok = ops.getAddress reqs.asset →
      env.readEscrowC 0 = .ok pe → strToLower pe ≠ strToLower esc →
      (settleWithRefundHelper ops env paymentPayload reqs).1 =
        .error (jsErr (immutablesFailMsg (escrowMismatchMsg pe esc))) ∧
      Event.writeCall "executeDeposit" ∉
        (settleWithRefundHelper ops env paymentPayload reqs).2 ∧
      StrContainsSub (immutablesFailMsg (escrowMismatchMsg pe esc)) pe ∧
      StrContainsSub (immutablesFailMsg (escrowMismatchMsg pe esc)) esc) := by
  constructor
  · intro tok htok hne
    rw [settle_deployed_eq ops env paymentPayload reqs fa mps m esc c1 c2
      hx hf hf2 hp hp2 hm he hm1 hm2]
    unfold settleStage2 immutablesPhase immutablesInner
    simp [hesc, rcwr_ok0 _ _ 5 hreg, hauth, hsig, hs2, heq,
      rcwr_ok0 _ _ 5 htok, hne, errMessage_jsErr,
      tokenMismatch_contains_both]
  · intro tok pe htok hteq hpe hne
    rw [settle_deployed_eq ops env paymentPayload reqs fa mps m esc c1 c2
      hx hf hf2 hp hp2 hm he hm1 hm2]
    unfold settleStage2 immutablesPhase immutablesInner
    simp [hesc, rcwr_ok0 _ _ 5 hreg, hauth, hsig, hs2, heq,
      rcwr_ok0 _ _ 5 htok, hteq, rcwr_ok0 _ _ 5 hpe, hne, errMessage_jsErr,
      escrowMismatch_contains_both]

/-- Environment whose proxy declares a different token. -/
def envBadToken : Env := { envHappy with readToken := fun _ => .ok "0xothertoken" }

/-- Witness for C6 at the concrete fixtures (token branch). -/
theorem C6_proxy_consistency_witness :
    (settleWithRefundHelper opsW envBadToken payloadW reqsW).1 =
      .error (jsErr (immutablesFailMsg (tokenMismatchMsg "0xothertoken" "0xasset"))) ∧
    Event.writeCall "executeDeposit" ∉
      (settleWithRefundHelper opsW envBadToken payloadW reqsW).2 ∧
    StrContainsSub (immutablesFailMsg (tokenMismatchMsg "0xothertoken" "0xasset"))
      "0xothertoken" ∧
    StrContainsSub (immutablesFailMsg (tokenMismatchMsg "0xothertoken" "0xasset"))
      "0xasset" := by
  exact (C6_proxy_consistency opsW envBadToken payloadW reqsW
    factoryAddrW [("0xproxyaddr", "0xmerchant")] "0xmerchant" "0xescrow"
    (some "0x6080aa") (some "0x6080bb") authW sigW
    (by decide) rfl (by decide) rfl (by decide) rfl rfl
    (by decide) (by decide) (by decide) rfl rfl rfl (by decide) rfl).1
    "0xothertoken" rfl (by decide)

/-- Environment identical to the happy one except that the token reports
    the authorization nonce as already used. -/
def envNonceUsed : Env := { envHappy with readAuthState := fun _ => .ok true }

/-- C2 (code-bug evidence): the nonce check reads `authorizationState`
    successfully and it reports the nonce as used, so the try body does
    construct and throw the NonceReused error (third conjunct) — but the
    catch block of the same try/catch swallows that throw, so the
    settlement proceeds to invoke `executeDeposit` (second conjunct) and
    returns a success result (first conjunct) instead of raising. -/
theorem C2_nonce_reuse_swallowed :
    (settleWithRefundHelper opsW envNonceUsed payloadW reqsW).1 =
      .ok (some ⟨true, "0xtxdeposit", "eip155:84532", "0xuser"⟩) ∧
    Event.writeCall "executeDeposit" ∈
      (settleWithRefundHelper opsW envNonceUsed payloadW reqsW).2 ∧
    (noncePhaseInner envNonceUsed "0xasset" "0xnonce1").1 =
      .error (jsErr (nonceUsedMsg "0xnonce1")) := by
  exact ⟨rfl, by decide, rfl⟩

/-! ## Lemmas about the deposit retry loop -/

theorem countWrites_nil (fn : String) : countWrites fn [] = 0 := rfl

theorem countWrites_cons_write (fn : String) (t : List Event) :
    countWrites fn (Event.writeCall fn :: t) = countWrites fn t + 1 := by
  simp [countWrites, List.filter]

theorem countWrites_cons_getCode (fn a : String) (t : List Event) :
    countWrites fn (Event.getCode a :: t) = countWrites fn t := by
  have h : (Event.getCode a == Event.writeCall fn) = false :=
    beq_eq_false_iff_ne.mpr (by simp)
  simp [countWrites, List.filter, h]

theorem countWrites_cons_readCall (fn a f : String) (t : List Event) :
    countWrites fn (Event.readCall a f :: t) = countWrites fn t := by
  have h : (Event.readCall a f == Event.writeCall fn) = false :=
    beq_eq_false_iff_ne.mpr (by simp)
  simp [countWrites, List.filter, h]

theorem countWrites_cons_wait (fn : String) (t : List Event) :
    countWrites fn (Event.waitReceipt :: t) = countWrites fn t := by
  have h : (Event.waitReceipt == Event.writeCall fn) = false :=
    beq_eq_false_iff_ne.mpr (by simp)
  simp [countWrites, List.filter, h]

theorem countWrites_cons_delay (fn : String) (d : Nat) (t : List Event) :
    countWrites fn (Event.delay d :: t) = countWrites fn t := by
  have h : (Event.delay d == Event.writeCall fn) = false :=
    beq_eq_false_iff_ne.mpr (by simp)
  simp [countWrites, List.filter, h]

theorem countWrites_append (fn : String) (a b : List Event) :
    countWrites fn (a ++ b) = countWrites fn a + countWrites fn b := by
  simp [countWrites, List.filter_append]

theorem delaysOf_append (a b : List Event) :
    delaysOf (a ++ b) = delaysOf a ++ delaysOf b := by
  simp [delaysOf]

theorem delaysOf_writeCall (fn : String) (t : List Event) :
    delaysOf (Event.writeCall fn :: t) = delaysOf t := by
  simp [delaysOf]

theorem delaysOf_getCode (a : String) (t : List Event) :
    delaysOf (Event.getCode a :: t) = delaysOf t := by
  simp [delaysOf]

theorem delaysOf_wait (t : List Event) :
    delaysOf (Event.waitReceipt :: t) = delaysOf t := by
  simp [delaysOf]

/-- Every deposit attempt records exactly one `executeDeposit` write and no
    delay. -/
theorem depositAttempt_shape (wr : Nat → Except JsError String)
    (wt : Nat → Except JsError TxReceipt) (a : Nat) :
    countWrites "executeDeposit" (depositAttempt wr wt a).2 = 1 ∧
      delaysOf (depositAttempt wr wt a).2 = [] := by
  unfold depositAttempt
  cases wr a with
  | error e =>
    simp [countWrites_cons_write, countWrites_nil, delaysOf_writeCall, delaysOf_nil]
  | ok tx =>
    cases wt a with
    | error e =>
      simp [countWrites_cons_write, countWrites_cons_wait, countWrites_nil,
        delaysOf_writeCall, delaysOf_wait, delaysOf_nil]
    | ok receipt =>
      by_cases h : receipt.status = "success" <;>
        simp [h, countWrites_cons_write, countWrites_cons_wait, countWrites_nil,
          delaysOf_writeCall, delaysOf_wait, delaysOf_nil]

theorem depositGo_writes_pos (wr : Nat → Except JsError String)
    (wt : Nat → Except JsError TxReceipt) (a fuel : Nat) :
    1 ≤ countWrites "executeDeposit" (depositGo wr wt a fuel).2 := by
  cases fuel with
  | zero => rw [depositGo, (depositAttempt_shape wr wt a).1]
  | succ n =>
    rcases h : depositAttempt wr wt a with ⟨res, t⟩
    have h1 : countWrites "executeDeposit" t = 1 := by
      have := (depositAttempt_shape wr wt a).1
      rw [h] at this
      exact this
    cases res with
    | ok tx => simp [depositGo, h, h1]
    | error e =>
      simp [depositGo, h, countWrites_append, countWrites_cons_delay, h1]

theorem depositGo_writes_le (wr : Nat → Except JsError String)
    (wt : Nat → Except JsError TxReceipt) :
    ∀ (fuel a : Nat),
    countWrites "executeDeposit" (depositGo wr wt a fuel).2 ≤ fuel + 1 := by
  intro fuel
  induction fuel with
  | zero =>
    intro a
    rw [depositGo, (depositAttempt_shape wr wt a).1]
  | succ n ih =>
    intro a
    rcases h : depositAttempt wr wt a with ⟨res, t⟩
    have h1 : countWrites "executeDeposit" t = 1 := by
      have := (depositAttempt_shape wr wt a).1
      rw [h] at this
      exact this
    cases res with
    | ok tx =>
      simp [depositGo, h, h1]
    | error e =>
      have := ih (a + 1)
      simp [depositGo, h, countWrites_append, countWrites_cons_delay,
        countWrites_nil, h1]
      omega

/-- The delays recorded by the deposit loop are `1s * (k + 1)` before retry
    `k + 1`, one per non-final attempt. -/
theorem depositGo_delays (wr : Nat → Except JsError String)
    (wt : Nat → Except JsError TxReceipt) :
    ∀ (fuel a : Nat),
    delaysOf (depositGo wr wt a fuel).2 =
      (List.range (countWrites "executeDeposit" (depositGo wr wt a fuel).2 - 1)).map
        (fun k => (a + k + 1) * 1000) := by
  intro fuel
  induction fuel with
  | zero =>
    intro a
    rw [depositGo, (depositAttempt_shape wr wt a).1, (depositAttempt_shape wr wt a).2]
    simp
  | succ n ih =>
    intro a
    rcases h : depositAttempt wr wt a with ⟨res, t⟩
    have h1 : countWrites "executeDeposit" t = 1 := by
      have := (depositAttempt_shape wr wt a).1
      rw [h] at this
      exact this
    have h2 : delaysOf t = [] := by
      have := (depositAttempt_shape wr wt a).2
      rw [h] at this
      exact this
    cases res with
    | ok tx => simp [depositGo, h, h1, h2]
    | error e =>
      have hpos := depositGo_writes_pos wr wt (a + 1) n
      obtain ⟨c, hc⟩ : ∃ c,
          countWrites "executeDeposit" (depositGo wr wt (a + 1) n).2 = c + 1 :=
        ⟨countWrites "executeDeposit" (depositGo wr wt (a + 1) n).2 - 1, by omega⟩
      have ih' := ih (a + 1)
      rw [hc] at ih'
      simp only [Nat.add_sub_cancel] at ih'
      simp only [depositGo, h, countWrites_append, delaysOf_append,
        countWrites_cons_delay, countWrites_nil, delaysOf_delay, delaysOf_nil,
        h1, h2, hc, ih', List.nil_append]
      have hr : 1 + (c + 1) - 1 = c + 1 := by omega
      rw [hr, List.range_succ_eq_map, List.map_cons, List.map_map]
      simp only [List.singleton_append, List.cons.injEq]
      refine ⟨trivial, ?_⟩
      apply List.map_congr_left
      intro k _
      simp only [Function.comp]
      omega

/-- Reduction of a settlement run along the deployed-relay path all the
    way to the deposit loop, when every check passes. -/
theorem settle_to_deposit (ops : AddrOps) (env : Env)
    (paymentPayload : PaymentPayload) (reqs : PaymentRequirements)
    (fa : String) (mps : List (String × String)) (m esc : String)
    (c1 c2 : Option String) (auth : Authorization) (sig : String)
    (tok pe : String) (b : Bool)
    (hx : extractRefundInfo paymentPayload reqs = some (fa, mps))
    (hf : env.getCodeFactory = .ok c1) (hf2 : codeAbsent c1 = false)
    (hp : env.getCodeProxy = .ok c2) (hp2 : codeAbsent c2 = false)
    (hm : env.readMerchantPayout 0 = .ok m)
    (he : env.readEscrowA 0 = .ok esc)
    (hm1 : m ≠ "") (hm2 : m ≠ zeroAddress) (hesc : esc ≠ "")
    (hreg : env.readRegistered 0 = .ok true)
    (hauth : paymentPayload.payload.authorization = some auth)
    (hsig : paymentPayload.payload.signature = some sig) (hs2 : sig ≠ "")
    (heq : ops.getAddress auth.toAddr = ops.getAddress reqs.payTo)
    (htok : env.readToken 0 = .ok tok)
    (hteq : ops.getAddress tok = ops.getAddress reqs.asset)
    (hpe : env.readEscrowC 0 = .ok pe)
    (hleq : strToLower pe = strToLower esc)
    (hp6 : ops.parse6492 sig = none)
    (hs130 : (if strStartsWith sig "0x" then sig.length - 2 else sig.length) = 130)
    (hn : env.readAuthState 0 = .ok b) :
    settleWithRefundHelper ops env paymentPayload reqs =
      (match depositPhase env.writeExecuteDeposit env.waitDepositReceipt with
       | (.ok txHash, t4) =>
         (.ok (some ⟨true, txHash, reqs.network, auth.fromAddr⟩),
          Event.getCode fa :: Event.getCode (ops.getAddress reqs.payTo) ::
          Event.readCall (ops.getAddress reqs.payTo) "MERCHANT_PAYOUT" ::
          Event.readCall (ops.getAddress reqs.payTo) "ESCROW" ::
          Event.readCall (ops.getAddress esc) "registeredMerchants" ::
          Event.readCall (ops.getAddress reqs.payTo) "TOKEN" ::
          Event.readCall (ops.getAddress reqs.payTo) "ESCROW" ::
          Event.readCall (ops.getAddress reqs.asset) "authorizationState" :: t4)
       | (.error e, t4) =>
         (.error (jsErr (executeDepositFailedMsg (classifyDepositError e))),
          Event.getCode fa :: Event.getCode (ops.getAddress reqs.payTo) ::
          Event.readCall (ops.getAddress reqs.payTo) "MERCHANT_PAYOUT" ::
          Event.readCall (ops.getAddress reqs.payTo) "ESCROW" ::
          Event.readCall (ops.getAddress esc) "registeredMerchants" ::
          Event.readCall (ops.getAddress reqs.payTo) "TOKEN" ::
          Event.readCall (ops.getAddress reqs.payTo) "ESCROW" ::
          Event.readCall (ops.getAddress reqs.asset) "authorizationState" :: t4)) := by
  rw [settle_deployed_eq ops env paymentPayload reqs fa mps m esc c1 c2
    hx hf hf2 hp hp2 hm he hm1 hm2]
  unfold settleStage2 immutablesPhase immutablesInner noncePhase noncePhaseInner
  rcases hD : depositPhase env.writeExecuteDeposit env.waitDepositReceipt with ⟨res, t4⟩
  cases res with
  | ok txHash =>
    cases b <;>
      simp [hesc, rcwr_ok0 _ _ 5 hreg, hauth, hsig, hs2, heq,
        rcwr_ok0 _ _ 5 htok, hteq, rcwr_ok0 _ _ 5 hpe, hleq, hp6, hs130,
        rcwr_ok0 _ _ 5 hn, hD]
  | error e =>
    cases b <;>
      simp [hesc, rcwr_ok0 _ _ 5 hreg, hauth, hsig, hs2, heq,
        rcwr_ok0 _ _ 5 htok, hteq, rcwr_ok0 _ _ 5 hpe, hleq, hp6, hs130,
        rcwr_ok0 _ _ 5 hn, hD]

/-- Environment in which every `executeDeposit` attempt fails. -/
def envDepositFail : Env :=
  { envHappy with writeExecuteDeposit := fun _ => .error (jsErr "deposit boom") }

/-- C4 counterexample: on a run where every deposit attempt fails, the
    code makes 6 attempts at `executeDeposit` (one initial plus 5
    retries), not at most 5 as the claim states. -/
theorem C4_counterexample :
    ¬ (countWrites "executeDeposit"
        (settleWithRefundHelper opsW envDepositFail payloadW reqsW).2 ≤ 5) := by
  decide

/-- C4 (amended): the deposit-execution retry policy of
    `settleWithRefundHelper` makes at most 6 attempts (`maxRetries = 5`,
    so one initial attempt plus 5 retries), with linear backoff delays of
    `1s * (k + 1)` after the k-th failed attempt (attempts numbered from
    0, so the delays are 1s, 2s, 3s, 4s, 5s); when every attempt has
    failed, the last error is classified by the error classifier and
    raised rather than returned as null. -/
theorem C4_deposit_retry_amended (ops : AddrOps) (env : Env)
    (paymentPayload : PaymentPayload) (reqs : PaymentRequirements)
    (fa : String) (mps : List (String × String)) (m esc : String)
    (c1 c2 : Option String) (auth : Authorization) (sig : String)
    (tok pe : String) (b : Bool)
    (hx : extractRefundInfo paymentPayload reqs = some (fa, mps))
    (hf : env.getCodeFactory = .ok c1) (hf2 : codeAbsent c1 = false)
    (hp : env.getCodeProxy = .ok c2) (hp2 : codeAbsent c2 = false)
    (hm : env.readMerchantPayout 0 = .ok m)
    (he : env.readEscrowA 0 = .ok esc)
    (hm1 : m ≠ "") (hm2 : m ≠ zeroAddress) (hesc : esc ≠ "")
    (hreg : env.readRegistered 0 = .ok true)
    (hauth : paymentPayload.payload.authorization = some auth)
    (hsig : paymentPayload.payload.signature = some sig) (hs2 : sig ≠ "")
    (heq : ops.getAddress auth.toAddr = ops.getAddress reqs.payTo)
    (htok : env.readToken 0 = .ok tok)
    (hteq : ops.getAddress tok = ops.getAddress reqs.asset)
    (hpe : env.readEscrowC 0 = .ok pe)
    (hleq : strToLower pe = strToLower esc)
    (hp6 : ops.parse6492 sig = none)
    (hs130 : (if strStartsWith sig "0x" then sig.length - 2 else sig.length) = 130)
    (hn : env.readAuthState 0 = .ok b) :
    countWrites "executeDeposit"
      (settleWithRefundHelper ops env paymentPayload reqs).2 ≤ 6
  ∧ delaysOf (settleWithRefundHelper ops env paymentPayload reqs).2 =
      (List.range (countWrites "executeDeposit"
        (settleWithRefundHelper ops env paymentPayload reqs).2 - 1)).map
        (fun k => (k + 1) * 1000)
  ∧ (∀ e, (depositPhase env.writeExecuteDeposit env.waitDepositReceipt).1 =
        .error e →
      (settleWithRefundHelper ops env paymentPayload reqs).1 =
        .error (jsErr (executeDepositFailedMsg (classifyDepositError e)))) := by
  rw [settle_to_deposit ops env paymentPayload reqs fa mps m esc c1 c2 auth sig
    tok pe b hx hf hf2 hp hp2 hm he hm1 hm2 hesc hreg hauth hsig hs2 heq htok
    hteq hpe hleq hp6 hs130 hn]
  rcases hD : depositPhase env.writeExecuteDeposit env.waitDepositReceipt
    with ⟨res, t4⟩
  have hc4 : countWrites "executeDeposit" t4 ≤ 6 := by
    have := depositGo_writes_le env.writeExecuteDeposit env.waitDepositReceipt 5 0
    rw [show depositGo env.writeExecuteDeposit env.waitDepositReceipt 0 5 =
      depositPhase env.writeExecuteDeposit env.waitDepositReceipt from rfl, hD]
      at this
    exact this
  have hd4 : delaysOf t4 =
      (List.range (countWrites "executeDeposit" t4 - 1)).map
        (fun k => (k + 1) * 1000) := by
    have := depositGo_delays env.writeExecuteDeposit env.waitDepositReceipt 5 0
    rw [show depositGo env.writeExecuteDeposit env.waitDepositReceipt 0 5 =
      depositPhase env.writeExecuteDeposit env.waitDepositReceipt from rfl, hD]
      at this
    simpa using this
  cases res with
  | ok txHash =>
    refine ⟨?_, ?_, ?_⟩
    · simpa [countWrites_cons_getCode, countWrites_cons_readCall] using hc4
    · simpa [countWrites_cons_getCode, countWrites_cons_readCall,
        delaysOf_getCode, delaysOf_readCall] using hd4
    · intro e he'
      simp at he'
  | error e =>
    refine ⟨?_, ?_, ?_⟩
    · simpa [countWrites_cons_getCode, countWrites_cons_readCall] using hc4
    · simpa [countWrites_cons_getCode, countWrites_cons_readCall,
        delaysOf_getCode, delaysOf_readCall] using hd4
    · intro e' he'
      simp at he'
      subst he'
      rfl

/-- Witness for C4 (amended) at the concrete fixtures (all deposit
    attempts fail). -/
theorem C4_deposit_retry_amended_witness :
    countWrites "executeDeposit"
      (settleWithRefundHelper opsW envDepositFail payloadW reqsW).2 ≤ 6
  ∧ delaysOf (settleWithRefundHelper opsW envDepositFail payloadW reqsW).2 =
      (List.range (countWrites "executeDeposit"
        (settleWithRefundHelper opsW envDepositFail payloadW reqsW).2 - 1)).map
        (fun k => (k + 1) * 1000)
  ∧ (settleWithRefundHelper opsW envDepositFail payloadW reqsW).1 =
      .error (jsErr (executeDepositFailedMsg
        (classifyDepositError (jsErr "deposit boom")))) := by
  have h := C4_deposit_retry_amended opsW envDepositFail payloadW reqsW
    factoryAddrW [("0xproxyaddr", "0xmerchant")] "0xmerchant" "0xescrow"
    (some "0x6080aa") (some "0x6080bb") authW sigW "0xasset" "0xescrow" false
    (by decide) rfl (by decide) rfl (by decide) rfl rfl
    (by decide) (by decide) (by decide) rfl rfl rfl (by decide) rfl rfl rfl rfl
    rfl rfl (by decide) rfl
  exact ⟨h.1, h.2.1, h.2.2 (jsErr "deposit boom") rfl⟩

/-! ## Lemmas for the deployment path -/

/-- The trace of the deploy try body starts with the `getRelayAddress`
    consistency read. -/
theorem deployInner_head (env : Env) (fa proxy : String) :
    ∃ rest, (deployInner env fa proxy).2 =
      Event.readCall fa "getRelayAddress" :: rest := by
  obtain ⟨rest, hr⟩ := rcwrGo_head env.readRelayAddr fa "getRelayAddress" 0 5
  unfold deployInner
  rcases hR : readContractWithRetry env.readRelayAddr fa "getRelayAddress" 5
    with ⟨res, t⟩
  have ht : t = Event.readCall fa "getRelayAddress" :: rest := by
    have h2 : (readContractWithRetry env.readRelayAddr fa "getRelayAddress" 5).2 =
        Event.readCall fa "getRelayAddress" :: rest := hr
    rw [hR] at h2
    exact h2
  subst ht
  cases res <;> simp
  repeat' split
  all_goals simp

/-- The catch wrapper of the deploy block preserves the trace. -/
theorem deployPhase_trace (env : Env) (fa proxy : String) :
    (deployPhase env fa proxy).2 = (deployInner env fa proxy).2 := by
  unfold deployPhase
  rcases h : deployInner env fa proxy with ⟨res, t⟩
  cases res <;> simp

/-- In a list starting with three events distinct from `w`, any
    decomposition around `w` puts the third event in the prefix. -/
theorem mem_prefix_of_head3 (x1 x2 x3 w : Event) (rest : List Event)
    (h1 : x1 ≠ w) (h2 : x2 ≠ w) (h3 : x3 ≠ w) :
    ∀ p s, x1 :: x2 :: x3 :: rest = p ++ w :: s → x3 ∈ p := by
  intro p s h
  match p with
  | [] =>
    simp only [List.nil_append, List.cons.injEq] at h
    exact absurd h.1 h1
  | [a] =>
    simp only [List.cons_append, List.nil_append, List.cons.injEq] at h
    exact absurd h.2.1 h2
  | [a, b] =>
    simp only [List.cons_append, List.nil_append, List.cons.injEq] at h
    exact absurd h.2.2.1 h3
  | a :: b :: c :: p' =>
    simp only [List.cons_append, List.cons.injEq] at h
    have : c = x3 := h.2.2.1.symm
    subst this
    simp

/-- Reduction of a settlement run along the not-yet-deployed path up to
    the deploy block. -/
theorem settle_undeployed_eq (ops : AddrOps) (env : Env)
    (paymentPayload : PaymentPayload) (reqs : PaymentRequirements)
    (fa : String) (mps : List (String × String)) (m : String)
    (c1 c2 : Option String)
    (hx : extractRefundInfo paymentPayload reqs = some (fa, mps))
    (hf : env.getCodeFactory = .ok c1) (hf2 : codeAbsent c1 = false)
    (hp : env.getCodeProxy = .ok c2) (hp2 : codeAbsent c2 = true)
    (hlk : lookupMerchantPayout mps (ops.getAddress reqs.payTo) = some m)
    (hm1 : m ≠ "") (hm2 : m ≠ zeroAddress) :
    settleWithRefundHelper ops env paymentPayload reqs =
      (match deployPhase env fa (ops.getAddress reqs.payTo) with
       | (.error e, t2) =>
         (.error e, Event.getCode fa :: Event.getCode (ops.getAddress reqs.payTo) :: t2)
       | (.ok escrowAddress, t2) =>
         ((settleStage2 ops env paymentPayload reqs (ops.getAddress reqs.payTo)
            m escrowAddress).1,
          Event.getCode fa :: Event.getCode (ops.getAddress reqs.payTo) :: t2 ++
            (settleStage2 ops env paymentPayload reqs (ops.getAddress reqs.payTo)
              m escrowAddress).2)) := by
  unfold settleWithRefundHelper
  rw [hx]
  simp only [factoryCheck, hf, hf2, Bool.false_eq_true, if_false, hp, hp2,
    if_true, hlk, hm1, hm2, or_self, List.cons_append, List.nil_append]

/-- C5: when the relay proxy is not yet deployed, the `deployRelay` write
    is only issued after the factory `getRelayAddress` view has been read
    (first conjunct: in every trace decomposition around the write, the
    read lies before it); and when that view disagrees with the expected
    proxy address case-insensitively, settle raises the wrapped
    address-mismatch error and issues no `writeContract` call at all. -/
theorem C5_deploy_address_check (ops : AddrOps) (env : Env)
    (paymentPayload : PaymentPayload) (reqs : PaymentRequirements)
    (fa : String) (mps : List (String × String)) (m : String)
    (c1 c2 : Option String)
    (hx : extractRefundInfo paymentPayload reqs = some (fa, mps))
    (hf : env.getCodeFactory = .ok c1) (hf2 : codeAbsent c1 = false)
    (hp : env.getCodeProxy = .ok c2) (hp2 : codeAbsent c2 = true)
    (hlk : lookupMerchantPayout mps (ops.getAddress reqs.payTo) = some m)
    (hm1 : m ≠ "") (hm2 : m ≠ zeroAddress) :
    (∀ p s, (settleWithRefundHelper ops env paymentPayload reqs).2 =
        p ++ Event.writeCall "deployRelay" :: s →
      Event.readCall fa "getRelayAddress" ∈ p)
  ∧ (∀ expected, env.readRelayAddr 0 = .ok expected →
      strToLower expected ≠ strToLower (ops.getAddress reqs.payTo) →
      (settleWithRefundHelper ops env paymentPayload reqs).1 =
        .error (jsErr (wrapDeployError
          (jsErr (addressMismatchMsg expected (ops.getAddress reqs.payTo)))
          env.facilitatorAddress)) ∧
      (∀ fn, Event.writeCall fn ∉
        (settleWithRefundHelper ops env paymentPayload reqs).2)) := by
  constructor
  · intro p s hdec
    rw [settle_undeployed_eq ops env paymentPayload reqs fa mps m c1 c2
      hx hf hf2 hp hp2 hlk hm1 hm2] at hdec
    obtain ⟨rest, hrest⟩ := deployInner_head env fa (ops.getAddress reqs.payTo)
    rcases hD : deployPhase env fa (ops.getAddress reqs.payTo) with ⟨res, t2⟩
    have ht2 : t2 = Event.readCall fa "getRelayAddress" :: rest := by
      have := deployPhase_trace env fa (ops.getAddress reqs.payTo)
      rw [hD, hrest] at this
      exact this
    rw [hD] at hdec
    cases res with
    | error e =>
      rw [ht2] at hdec
      exact mem_prefix_of_head3 (Event.getCode fa)
        (Event.getCode (ops.getAddress reqs.payTo))
        (Event.readCall fa "getRelayAddress")
        (Event.writeCall "deployRelay") rest
        (by simp) (by simp) (by simp) p s hdec
    | ok escrowAddress =>
      rw [ht2] at hdec
      simp only [List.cons_append] at hdec
      exact mem_prefix_of_head3 (Event.getCode fa)
        (Event.getCode (ops.getAddress reqs.payTo))
        (Event.readCall fa "getRelayAddress")
        (Event.writeCall "deployRelay") _
        (by simp) (by simp) (by simp) p s hdec
  · intro expected hrel hne
    have hDI : deployInner env fa (ops.getAddress reqs.payTo) =
        (.error (jsErr (addressMismatchMsg expected (ops.getAddress reqs.payTo))),
         [Event.readCall fa "getRelayAddress"]) := by
      unfold deployInner
      rw [rcwr_ok0 _ _ 5 hrel]
      simp [hne]
    have hDP : deployPhase env fa (ops.getAddress reqs.payTo) =
        (.error (jsErr (wrapDeployError
          (jsErr (addressMismatchMsg expected (ops.getAddress reqs.payTo)))
          env.facilitatorAddress)),
         [Event.readCall fa "getRelayAddress"]) := by
      unfold deployPhase
      rw [hDI]
    rw [settle_undeployed_eq ops env paymentPayload reqs fa mps m c1 c2
      hx hf hf2 hp hp2 hlk hm1 hm2, hDP]
    simp

/-- Environment with the relay not yet deployed and a factory computing a
    different relay address. -/
def envUndeployed : Env :=
  { envHappy with
    getCodeProxy := .ok none
    readRelayAddr := fun _ => .ok "0xelsewhere" }

/-- Witness for C5 at the concrete fixtures. -/
theorem C5_deploy_address_check_witness :
    (settleWithRefundHelper opsW envUndeployed payloadW reqsW).1 =
      .error (jsErr (wrapDeployError
        (jsErr (addressMismatchMsg "0xelsewhere" "0xproxyaddr"))
        "0xfacilitator")) ∧
    Event.writeCall "deployRelay" ∉
      (settleWithRefundHelper opsW envUndeployed payloadW reqsW).2 := by
  have h := (C5_deploy_address_check opsW envUndeployed payloadW reqsW
    factoryAddrW [("0xproxyaddr", "0xmerchant")] "0xmerchant"
    (some "0x6080aa") none
    (by decide) rfl (by decide) rfl (by decide) rfl (by decide) (by decide)).2
    "0xelsewhere" rfl (by decide)
  exact ⟨h.1, h.2 "deployRelay"⟩

/-- C9: when the existence probe finds code at `payTo` but the subsequent
    `MERCHANT_PAYOUT` read (first conjunct) or `ESCROW` read (second
    conjunct) fails with a non-rate-limited error, `settleWithRefundHelper`
    returns null (the NotApplicable sentinel) instead of raising. -/
theorem C9_proxy_read_fallback (ops : AddrOps) (env : Env)
    (paymentPayload : PaymentPayload) (reqs : PaymentRequirements)
    (fa : String) (mps : List (String × String)) (c1 c2 : Option String)
    (hx : extractRefundInfo paymentPayload reqs = some (fa, mps))
    (hf : env.getCodeFactory = .ok c1) (hf2 : codeAbsent c1 = false)
    (hp : env.getCodeProxy = .ok c2) (hp2 : codeAbsent c2 = false) :
    (∀ j e, j ≤ 5 → env.readMerchantPayout j = .error e →
      isRateLimitError e = false →
      (∀ i, i < j → ∃ e2, env.readMerchantPayout i = .error e2 ∧
        isRateLimitError e2 = true) →
      (settleWithRefundHelper ops env paymentPayload reqs).1 = .ok none)
  ∧ (∀ m j e, env.readMerchantPayout 0 = .ok m → j ≤ 5 →
      env.readEscrowA j = .error e → isRateLimitError e = false →
      (∀ i, i < j → ∃ e2, env.readEscrowA i = .error e2 ∧
        isRateLimitError e2 = true) →
      (settleWithRefundHelper ops env paymentPayload reqs).1 = .ok none) := by
  constructor
  · intro j e hj he hrl hpre
    have hres := (rcwrGo_nonRL env.readMerchantPayout
      (ops.getAddress reqs.payTo) "MERCHANT_PAYOUT" j 0 5 e hj
      (by simpa using he) hrl (by simpa using hpre)).1
    unfold settleWithRefundHelper
    rw [hx]
    simp only [factoryCheck, hf, hf2, Bool.false_eq_true, if_false, hp, hp2]
    unfold relayReadPhase
    rcases hR : readContractWithRetry env.readMerchantPayout
      (ops.getAddress reqs.payTo) "MERCHANT_PAYOUT" 5 with ⟨res, t⟩
    have hre : res = .error e := by
      have h1 : (readContractWithRetry env.readMerchantPayout
          (ops.getAddress reqs.payTo) "MERCHANT_PAYOUT" 5).1 = .error e := hres
      rw [hR] at h1
      exact h1
    subst hre
    simp
  · intro m j e hm hj he hrl hpre
    have hres := (rcwrGo_nonRL env.readEscrowA
      (ops.getAddress reqs.payTo) "ESCROW" j 0 5 e hj
      (by simpa using he) hrl (by simpa using hpre)).1
    unfold settleWithRefundHelper
    rw [hx]
    simp only [factoryCheck, hf, hf2, Bool.false_eq_true, if_false, hp, hp2]
    unfold relayReadPhase
    rw [rcwr_ok0 _ _ 5 hm]
    rcases hR : readContractWithRetry env.readEscrowA
      (ops.getAddress reqs.payTo) "ESCROW" 5 with ⟨res, t⟩
    have hre : res = .error e := by
      have h1 : (readContractWithRetry env.readEscrowA
          (ops.getAddress reqs.payTo) "ESCROW" 5).1 = .error e := hres
      rw [hR] at h1
      exact h1
    subst hre
    simp

/-- Environment whose deployed proxy rejects the `MERCHANT_PAYOUT` read. -/
def envProxyReadFails : Env :=
  { envHappy with readMerchantPayout := fun _ => .error (jsErr "not a refund proxy") }

/-- Witness for C9 at the concrete fixtures. -/
theorem C9_proxy_read_fallback_witness :
    (settleWithRefundHelper opsW envProxyReadFails payloadW reqsW).1 = .ok none := by
  exact (C9_proxy_read_fallback opsW envProxyReadFails payloadW reqsW
    factoryAddrW [("0xproxyaddr", "0xmerchant")]
    (some "0x6080aa") (some "0x6080bb")
    (by decide) rfl (by decide) rfl (by decide)).1
    0 (jsErr "not a refund proxy") (by omega) rfl (by decide)
    (by intro i hi; omega)

/-! ## C7: the revert-string decoder -/

/-- The ABI encoding of `Error("abc")`: selector, offset 0x20, length 3,
    then the padded UTF-8 bytes of `abc`. -/
def errData7 : String :=
  "0x08c379a0" ++
  "0000000000000000000000000000000000000000000000000000000000000020" ++
  "0000000000000000000000000000000000000000000000000000000000000003" ++
  "6162630000000000000000000000000000000000000000000000000000000000"

/-- An execution failure whose direct cause carries `errData7` as its
    `data` field and no structured `reason`. -/
def err7 : JsError :=
  .causedBy ⟨none, some "execution reverted blah", none, none, none, none⟩
    (.base ⟨none, none, none, none, none, some errData7⟩)

/-- C7 (code-bug evidence): `errData7` is a well-formed `Error(string)`
    payload whose spec decode is exactly `abc` (first conjunct), yet the
    code-faithful decoder extracts nothing from it (second conjunct): it
    reads the string-payload word at character offset 138 as the length and
    slices the string from offset 202, past the end of the data.  Hence the
    classifier attaches no revert reason (third conjunct) and falls back to
    the generic diagnostic (fourth conjunct). -/
theorem C7_error_string_decode_bug :
    decodeErrorStringSpec errData7 = some "abc" ∧
    decodeRevertHexData errData7 = none ∧
    extractRevertReason err7 = none ∧
    classifyDepositError err7 = fallbackDiagnostic "execution reverted blah" := by
  exact ⟨rfl, rfl, rfl, rfl⟩

/-! ## C8: invalid factory address -/

/-- A payload whose refund extension carries a syntactically invalid
    factory address. -/
def payloadBadFactory : PaymentPayload :=
  { payloadW with
    extensions := some (some ⟨some ⟨some "not-an-address",
      some [("0xproxyaddr", "0xmerchant")]⟩⟩) }

/-- C8 counterexample: with a refund extension present whose factory
    address is not syntactically valid, settle returns the NotApplicable
    sentinel (`null`) — it does not surface a fatal configuration error. -/
theorem C8_counterexample :
    isAddress "not-an-address" = false ∧
    (settleWithRefundHelper opsW envHappy payloadBadFactory reqsW).1 = .ok none := by
  exact ⟨rfl, rfl⟩

/-- C8 (amended): when the payment payload carries a refund extension
    whose factory address is missing, empty, or not syntactically valid,
    `extractRefundInfo` yields none and settle returns the NotApplicable
    sentinel without any chain interaction — the same sentinel used for
    the no-extension and unsupported-signature cases; fatal configuration
    errors are reserved for a well-formed factory address with no code on
    chain. -/
theorem C8_invalid_factory_amended (ops : AddrOps) (env : Env)
    (reqs : PaymentRequirements) (pl : InnerPayload)
    (ext : RefundExtensionData)
    (h : ext.info = none ∨
      ∃ info, ext.info = some info ∧
        (info.factoryAddress = none ∨ info.factoryAddress = some "" ∨
         ∃ fa, info.factoryAddress = some fa ∧ fa ≠ "" ∧ isAddress fa = false)) :
    extractRefundInfo ⟨some (some ext), pl⟩ reqs = none ∧
    settleWithRefundHelper ops env ⟨some (some ext), pl⟩ reqs = (.ok none, []) := by
  have hx : extractRefundInfo ⟨some (some ext), pl⟩ reqs = none := by
    unfold extractRefundInfo
    rcases h with h | ⟨info, hi, h2⟩
    · simp [h]
    · rcases h2 with h2 | h2 | ⟨fa, hfa, hne, hbad⟩
      · simp [hi, h2]
      · simp [hi, h2]
      · simp [hi, hfa, hne, hbad]
  refine ⟨hx, ?_⟩
  unfold settleWithRefundHelper
  rw [hx]

/-- Witness for C8 (amended) at the concrete bad-factory fixture. -/
theorem C8_invalid_factory_amended_witness :
    extractRefundInfo payloadBadFactory reqsW = none ∧
    settleWithRefundHelper opsW envHappy payloadBadFactory reqsW = (.ok none, []) := by
  exact C8_invalid_factory_amended opsW envHappy reqsW payloadW.payload
    ⟨some ⟨some "not-an-address", some [("0xproxyaddr", "0xmerchant")]⟩⟩
    (Or.inr ⟨_, rfl, Or.inr (Or.inr ⟨"not-an-address", rfl, by decide, rfl⟩)⟩)

/-! ## C10: route processing and the facilitator lookup -/

/-- Appending a fresh key finds its value when no earlier key equals it. -/
theorem lookup_append_right {V : Type} (l : List (String × V)) (k : String)
    (v : V) (h : ∀ p ∈ l, p.1 ≠ k) :
    (l ++ [(k, v)]).lookup k = some v := by
  induction l with
  | nil => simp [List.lookup]
  | cons p rest ih =>
    have hp : (k == p.1) = false :=
      beq_eq_false_iff_ne.mpr fun hc => (h p (by simp)) hc.symm
    simp only [List.cons_append, List.lookup, hp]
    exact ih fun q hq => h q (by simp [hq])

/-- The keys kept by a merge with a single-entry update differ from that
    entry key. -/
theorem filter_merge_keys {V : Type} (base : List (String × V)) (k : String)
    (v : V) :
    ∀ p ∈ base.filter
      (fun p => ((([(k, v)] : List (String × V)).lookup p.1).isNone)), p.1 ≠ k := by
  intro p hp hc
  have hmem := List.of_mem_filter hp
  rw [hc] at hmem
  simp [List.lookup] at hmem

/-- Looking up the key written by a record merge with a single-entry
    update finds that entry. -/
theorem lookup_mergeRecords_single {V : Type} (base : List (String × V))
    (k : String) (v : V) :
    (mergeRecords base [(k, v)]).lookup k = some v := by
  unfold mergeRecords
  exact lookup_append_right _ k v (filter_merge_keys base k v)

/-- C10: processing a route whose single option is refundable with a
    string `payTo` emits exactly the config whose option `payTo` is the
    computed proxy address and whose refund extension merchantPayouts map
    is keyed by the lowercased proxy address (first conjunct); the
    extension lookup finds that map (second conjunct); the computed proxy
    address is already checksummed (third conjunct); and the facilitator
    two-step lookup applied to the checksum-normalized payTo recovers the
    original merchant payout (fourth conjunct). -/
theorem C10_refund_route_lookup (ops : AddrOps) (o : PaymentOption)
    (exts : Option (List (String × RefundExtensionOut)))
    (fa cx m net : String)
    (href : isRefundableOption o = true) (hpay : o.payTo = .addr m)
    (hnet : o.network = some net) (hnet2 : net ≠ "") (hcx : cx ≠ "") :
    processRouteConfig ops ⟨.one o, exts⟩ fa (some cx) =
      .ok ⟨.one ⟨.addr (ops.computeRelay cx fa m), o.network,
        some ((o.extra.getD []).filter fun q => q.1 ≠ REFUND_MARKER_KEY)⟩,
        some (mergeRecords (exts.getD []) (declareRefundExtension fa
          [(strToLower (ops.computeRelay cx fa m), m)]))⟩
  ∧ (mergeRecords (exts.getD []) (declareRefundExtension fa
      [(strToLower (ops.computeRelay cx fa m), m)])).lookup
        REFUND_EXTENSION_KEY =
      some ⟨fa, [(strToLower (ops.computeRelay cx fa m), m)]⟩
  ∧ ops.getAddress (ops.computeRelay cx fa m) = ops.computeRelay cx fa m
  ∧ lookupMerchantPayout [(strToLower (ops.computeRelay cx fa m), m)]
      (ops.getAddress (ops.computeRelay cx fa m)) = some m := by
  have hc := ops.checksum_computeRelay cx fa m
  refine ⟨?_, ?_, hc, ?_⟩
  · unfold processRouteConfig
    simp [hnet, hnet2, getCreateXAddress, hcx, href, hpay,
      buildMerchantPayoutsMap, recordSet, processAccepts,
      processPaymentOption, declareRefundExtension, Except.map]
  · exact lookup_mergeRecords_single (exts.getD []) REFUND_EXTENSION_KEY _
  · rw [hc]
    unfold lookupMerchantPayout jsOrOpt
    by_cases hpc : ops.computeRelay cx fa m = strToLower (ops.computeRelay cx fa m)
    · have hb : (ops.computeRelay cx fa m ==
          strToLower (ops.computeRelay cx fa m)) = true := beq_iff_eq.mpr hpc
      by_cases hm0 : m = ""
      · subst hm0
        simp [List.lookup, hb]
      · simp [List.lookup, hb, hm0]
    · have hb : (ops.computeRelay cx fa m ==
          strToLower (ops.computeRelay cx fa m)) = false :=
        beq_eq_false_iff_ne.mpr hpc
      simp [List.lookup, hb]

/-- A refundable payment option fixture. -/
def optionRefW : PaymentOption :=
  refundable ⟨.addr "0xmerchant", some "eip155:84532", none⟩

/-- The route config emitted for `optionRefW` by the fixtures. -/
def cfgW : RouteConfig :=
  ⟨.one ⟨.addr "0xproxyaddr", some "eip155:84532", some []⟩,
   some [(REFUND_EXTENSION_KEY,
     ⟨factoryAddrW, [("0xproxyaddr", "0xmerchant")]⟩)]⟩

/-- Witness for C10 at the concrete fixtures. -/
theorem C10_refund_route_lookup_witness :
    processRouteConfig opsW ⟨.one optionRefW, none⟩ factoryAddrW
      (some "0xcreatex") = .ok cfgW ∧
    lookupMerchantPayout [("0xproxyaddr", "0xmerchant")] "0xproxyaddr" =
      some "0xmerchant" := by
  have h := C10_refund_route_lookup opsW optionRefW none factoryAddrW
    "0xcreatex" "0xmerchant" "eip155:84532" (by decide) rfl rfl
    (by decide) (by decide)
  exact ⟨h.1, h.2.2.2⟩

end X402r
